import Mathlib

/-!
Verification development for the visual-report PDF rendering engine
(components/report_to_pdf_node.py).

The engine is embedded shallowly: every canvas call of the source becomes an
explicit drawing operation, every renderer becomes a pure function from a
vertical cursor to a list of emitted drawing operations plus the advanced
cursor, and Python numbers are modelled as exact rationals.  Python dict rows
become association lists with distinct keys (Python dicts cannot hold
duplicate keys), preserving insertion order.  The one fallible renderer
(the styled table, which calls item.get on unchecked entries and divides by
the column count) returns an Option.
-/

namespace Pdf

attribute [local semireducible] Rat.add Rat.sub Rat.mul Rat.inv

/-- One reportlab centimeter in points: cm = 72 / 2.54 exactly. -/
def cm : Rat := 3600 / 127

/-- A4 page width (210 mm) as used by reportlab.lib.pagesizes.A4. -/
def pageWidth : Rat := 21 * cm

/-- A4 page height (297 mm) as used by reportlab.lib.pagesizes.A4. -/
def pageHeight : Rat := 297 * cm / 10

/-- Model of a Python scalar value as stored in a row mapping.  Python
floats are modelled as exact rationals: none of the verified properties
depends on binary floating point rounding. -/
inductive PyVal where
  | pynone
  | pybool (b : Bool)
  | pyint (n : Int)
  | pyfloat (q : Rat)
  | pystr (s : String)
deriving DecidableEq, Repr

/-- A row mapping: keys in insertion order with their values. -/
abbrev Row := List (String × PyVal)

/-- An entry of a row list: either a mapping or some non-mapping value
(the source guards several loops with isinstance(item, dict)). -/
inductive RowItem where
  | dict (r : Row)
  | nondict (v : PyVal)
deriving DecidableEq, Repr

/-- The data argument of the chart renderers: the source checks
isinstance(data, list) and treats everything else as a no-op. -/
inductive PyTab where
  | list (items : List RowItem)
  | notList (v : PyVal)
deriving DecidableEq, Repr

/-- An insight entry: ReportModel.insights is List[Union[str, Dict[str, str]]]. -/
inductive Insight where
  | text (s : String)
  | dict (kvs : List (String × String))
deriving DecidableEq, Repr

/-- The validated report data model (class ReportModel). -/
structure Report where
  title : String
  executive_summary : String
  timeframe : String
  dataset_used : String
  key_metrics : List Row
  insights : List Insight
  findings : List String
  recommendations : List String
  limitations : List String
  next_steps : List String
deriving DecidableEq, Repr

/-- Python truthiness of an optional string: None and the empty string are
falsy (the source tests key_field and value_field this way). -/
def strOptTruthy : Option String → Bool
  | Option.none => false
  | Option.some s => !(s = "")

/-- The character for a decimal digit value below ten. -/
def digitCharOf (n : Nat) : Char := Char.ofNat (48 + n)

/-- Insert a comma after every three characters of a reversed digit list
(used to model the Python thousands separator format). -/
def commasRev : List Char → List Char
  | a :: b :: c :: d :: rest => a :: b :: c :: ',' :: commasRev (d :: rest)
  | l => l

/-- Decimal digits of a natural number, most significant first. -/
def natDigits (n : Nat) : List Char := Nat.toDigits 10 n

/-- Digits of a natural number with thousands separators. -/
def groupedDigits (n : Nat) : List Char := (commasRev (natDigits n).reverse).reverse

/-- Model of the Python format spec applied to an int value in the table
renderer, including the thousands separator. -/
def pyFormatComma (n : Int) : String :=
  (if n < 0 then "-" else "") ++ String.mk (groupedDigits n.natAbs)

/-- Round a rational to the nearest integer, ties to even (the rounding used
by Python float formatting, on the exact value in this model). -/
def roundHalfEven (q : Rat) : Int :=
  let fl := q.floor
  let diff := q - (fl : Rat)
  if diff < 1 / 2 then fl
  else if 1 / 2 < diff then fl + 1
  else if fl % 2 = 0 then fl else fl + 1

/-- Model of the Python format spec applied to a float value in the table
renderer: two decimal places with thousands separators. -/
def pyFormatCommaFixed2 (q : Rat) : String :=
  let m := roundHalfEven (q * 100)
  let a := m.natAbs
  (if m < 0 then "-" else "")
    ++ String.mk (groupedDigits (a / 100))
    ++ "." ++ String.mk [digitCharOf (a / 10 % 10), digitCharOf (a % 10)]

/-- Decimal digits of a fractional remainder over a denominator, up to the
given fuel (used to model the str form of a Python float). -/
def fracDigits : Nat → Nat → Nat → List Char
  | 0, _, _ => []
  | _ + 1, 0, _ => []
  | f + 1, r, d => digitCharOf (r * 10 / d) :: fracDigits f (r * 10 % d) d

/-- Model of str applied to a Python float: a decimal expansion (cut after
17 digits; Python prints the shortest roundtrip form of the binary float,
a distinction that no verified property depends on). -/
def ratStr (q : Rat) : String :=
  let sign := if q < 0 then "-" else ""
  let a := q.num.natAbs
  let d := q.den
  if a % d = 0 then sign ++ String.mk (natDigits (a / d)) ++ ".0"
  else sign ++ String.mk (natDigits (a / d)) ++ "." ++ String.mk (fracDigits 17 (a % d) d)

/-- Model of the Python str function on scalar values. -/
def pyStr : PyVal → String
  | PyVal.pynone => "None"
  | PyVal.pybool b => if b then "True" else "False"
  | PyVal.pyint n => toString n
  | PyVal.pyfloat q => ratStr q
  | PyVal.pystr s => s

/-- Model of Python str.title composed after replacing underscores: a letter
that follows a cased character is lowercased, any other letter is
uppercased. -/
def pyTitleAux : Bool → List Char → List Char
  | _, [] => []
  | prevAlpha, ch :: rest =>
    if ch.isAlpha then
      (if prevAlpha then ch.toLower else ch.toUpper) :: pyTitleAux true rest
    else ch :: pyTitleAux false rest

/-- The column-header label of the source: col.replace(underscore, space).title(). -/
def headerLabel (col : String) : String :=
  String.mk (pyTitleAux false ((col.toList.map fun ch => if ch = '_' then ' ' else ch)))

/-- Numeric value of a digit string (empty string gives zero). -/
def natFromDigits (s : String) : Nat :=
  s.foldl (fun a c => a * 10 + (c.toNat - 48)) 0

/-- Model of the Python float constructor on a string: optional sign, digits
with at most one decimal point (exponent forms are not modelled; their
absence only makes some convertible strings count as non-convertible, the
fallback behavior under verification is unaffected). -/
def parseFloatStr (s : String) : Option Rat :=
  let t := s.trim
  let (sign, body) : Int × String :=
    if t.startsWith "-" then (-1, t.drop 1)
    else if t.startsWith "+" then (1, t.drop 1) else (1, t)
  match body.splitOn "." with
  | [ip] =>
    if ip ≠ "" ∧ ip.toList.all Char.isDigit then
      Option.some ((sign : Rat) * (natFromDigits ip : Rat))
    else Option.none
  | [ip, fp] =>
    if ip ++ fp ≠ "" ∧ ip.toList.all Char.isDigit ∧ fp.toList.all Char.isDigit then
      Option.some ((sign : Rat) *
        ((natFromDigits ip : Rat) + (natFromDigits fp : Rat) / ((10 : Rat) ^ fp.length)))
    else Option.none
  | _ => Option.none

/-- Model of the Python float constructor on a scalar: Option.none models a
raised conversion error. -/
def pyFloat : PyVal → Option Rat
  | PyVal.pyint n => Option.some (n : Rat)
  | PyVal.pyfloat q => Option.some q
  | PyVal.pybool b => Option.some (if b then 1 else 0)
  | PyVal.pystr s => parseFloatStr s
  | PyVal.pynone => Option.none

/-- Model of dict.get(key, default) on a row mapping. -/
def rowGetD (r : Row) (k : String) (d : PyVal) : PyVal :=
  match r.find? (fun kv => kv.1 == k) with
  | Option.some kv => kv.2
  | Option.none => d

/-- Whether a value satisfies isinstance(v, (int, float)) in Python; note
that Python bool is a subclass of int. -/
def isNumericVal : PyVal → Bool
  | PyVal.pyint _ => true
  | PyVal.pyfloat _ => true
  | PyVal.pybool _ => true
  | _ => false

/-- The first key of a row whose value is numeric: the numeric-field scan of
the composer over the keys of row zero. -/
def numericField (r : Row) : Option String :=
  (r.find? fun kv => isNumericVal kv.2).map Prod.fst

/-- Split a string into whitespace-separated words. -/
def splitWords (s : String) : List String :=
  (s.split Char.isWhitespace).filter (fun w => w ≠ "")

/-- Greedy fill of words into lines of at most the given width (a word
longer than the width becomes its own line; Python textwrap additionally
breaks such words, a difference no verified property depends on). -/
def wrapLoop (w : Nat) : List String → String → List String
  | [], cur => if cur = "" then [] else [cur]
  | word :: rest, cur =>
    if cur = "" then wrapLoop w rest word
    else if cur.length + 1 + word.length ≤ w then wrapLoop w rest (cur ++ " " ++ word)
    else cur :: wrapLoop w rest word

/-- Model of textwrap.wrap(text, width): the empty text yields no lines. -/
def pyWrap (s : String) (w : Nat) : List String := wrapLoop w (splitWords s) ""

/-- Model of str on a Dict[str, str] (the fallback text of an insight
mapping without an insight key). -/
def pyStrStrDict (kvs : List (String × String)) : String :=
  "\x7b" ++ String.intercalate ", "
    (kvs.map fun kv => "\x27" ++ kv.1 ++ "\x27: \x27" ++ kv.2 ++ "\x27") ++ "\x7d"

/-- The display text of an insight entry: insight.get(insight-key, str(insight))
for mappings, str(insight) otherwise. -/
def insightText : Insight → String
  | Insight.text s => s
  | Insight.dict kvs =>
    match kvs.find? (fun kv => kv.1 == "insight") with
    | Option.some kv => kv.2
    | Option.none => pyStrStrDict kvs

/-- One drawing operation on the canvas.  Chart drawings record the title,
labels and values handed to the reportlab chart object; the table drawing
records the formatted cell grid. -/
inductive DrawOp where
  | rect (x y w h : Rat) (fill stroke : Bool)
  | roundRect (x y w h r : Rat) (fill stroke : Bool)
  | drawString (x y : Rat) (s : String)
  | setFont (name : String) (size : Rat)
  | setFillColor (c : String)
  | setStrokeColor (c : String)
  | setLineWidth (w : Rat)
  | line (x1 y1 x2 y2 : Rat)
  | circle (x y r : Rat) (fill stroke : Bool)
  | barDrawing (title : String) (labels : List String) (values : List Rat) (x y w h : Rat)
  | pieDrawing (title : String) (labels : List String) (values : List Rat) (x y w h : Rat)
  | table (cells : List (List String)) (x y : Rat)
  | showPage
deriving DecidableEq, Repr

/-- The effective key field of a chart call: the passed field if truthy, else
the first key of row zero if it is a mapping, else the passed field (which
then fails the truthiness check). -/
def effectiveKeyField (items : List RowItem) (kf : Option String) : Option String :=
  if strOptTruthy kf then kf
  else
    match items.head? with
    | Option.some (RowItem.dict r) =>
      match r.map Prod.fst with
      | [] => Option.none
      | k :: _ => Option.some k
    | _ => kf

/-- The effective value field of a chart call: the passed field if truthy,
else the second key of row zero (or the first when only one exists). -/
def effectiveValueField (items : List RowItem) (vf : Option String) : Option String :=
  if strOptTruthy vf then vf
  else
    match items.head? with
    | Option.some (RowItem.dict r) =>
      match r.map Prod.fst with
      | [] => Option.none
      | [k] => Option.some k
      | _ :: k2 :: _ => Option.some k2
    | _ => vf

/-- The per-row chart value: float(item.get(value_field, 0)) with any
conversion failure coerced to zero by the bare except of the source. -/
def chartRowValue (r : Row) (vf : String) : Rat :=
  (pyFloat (rowGetD r vf (PyVal.pyint 0))).getD 0

/-- Label and value pairs prepared by the bar chart renderer: mapping rows
only, labels truncated to ten characters. -/
def barPairs (items : List RowItem) (kf vf : String) : List (String × Rat) :=
  items.filterMap fun it =>
    match it with
    | RowItem.dict r =>
      Option.some ((pyStr (rowGetD r kf (PyVal.pystr ""))).take 10, chartRowValue r vf)
    | RowItem.nondict _ => Option.none

/-- Label and value pairs prepared by the pie chart renderer: mapping rows
only, labels not truncated. -/
def piePairs (items : List RowItem) (kf vf : String) : List (String × Rat) :=
  items.filterMap fun it =>
    match it with
    | RowItem.dict r =>
      Option.some (pyStr (rowGetD r kf (PyVal.pystr "")), chartRowValue r vf)
    | RowItem.nondict _ => Option.none

/-- Embedding of _create_bar_chart: no-op on non-list or empty data or
uninferable fields, otherwise one bar drawing over the first ten rows and
the cursor advanced below the chart. -/
def createBarChart (data : PyTab) (x y w h : Rat) (title : String)
    (kf vf : Option String) : List DrawOp × Rat :=
  match data with
  | PyTab.notList _ => ([], y)
  | PyTab.list items =>
    if items = [] then ([], y)
    else
      let kfE := effectiveKeyField items kf
      let vfE := effectiveValueField items vf
      if strOptTruthy kfE ∧ strOptTruthy vfE then
        let pairs := barPairs (items.take 10) (kfE.getD "") (vfE.getD "")
        if pairs = [] then ([], y)
        else ([DrawOp.barDrawing title (pairs.map Prod.fst) (pairs.map Prod.snd) x (y - h) w h],
              y - h - 20)
      else ([], y)

/-- Embedding of _create_pie_chart: as the bar chart but over the first
eight rows, and additionally a no-op when the prepared values sum to zero. -/
def createPieChart (data : PyTab) (x y w h : Rat) (title : String)
    (kf vf : Option String) : List DrawOp × Rat :=
  match data with
  | PyTab.notList _ => ([], y)
  | PyTab.list items =>
    if items = [] then ([], y)
    else
      let kfE := effectiveKeyField items kf
      let vfE := effectiveValueField items vf
      if strOptTruthy kfE ∧ strOptTruthy vfE then
        let pairs := piePairs (items.take 8) (kfE.getD "") (vfE.getD "")
        if pairs = [] ∨ (pairs.map Prod.snd).sum = 0 then ([], y)
        else ([DrawOp.pieDrawing title (pairs.map Prod.fst) (pairs.map Prod.snd) x (y - h) w h],
              y - h - 20)
      else ([], y)

/-- Embedding of _draw_header: gradient rectangles, title, generation
timestamp line (the formatted current date is passed in as a string) and the
decorative rule; returns the cursor below the header. -/
def headerOps (now title : String) (pw ph : Rat) : List DrawOp × Rat :=
  ([DrawOp.setFillColor "#2C3E50",
    DrawOp.rect 0 (ph - 3 * cm) pw (3 * cm) true false,
    DrawOp.setFillColor "#34495E",
    DrawOp.rect 0 (ph - 3 * cm + 3 * cm / 10) pw (3 * cm - 3 * cm / 10) true false,
    DrawOp.setFillColor "#3D5A6C",
    DrawOp.rect 0 (ph - 3 * cm + 6 * cm / 10) pw (3 * cm - 6 * cm / 10) true false,
    DrawOp.setFillColor "white",
    DrawOp.setFont "Helvetica-Bold" 22,
    DrawOp.drawString (2 * cm) (ph - 9 * cm / 5) title,
    DrawOp.setFont "Helvetica" 10,
    DrawOp.drawString (2 * cm) (ph - 23 * cm / 10) ("Generated: " ++ now),
    DrawOp.setStrokeColor "#3498DB",
    DrawOp.setLineWidth 2,
    DrawOp.line 0 (ph - 3 * cm) pw (ph - 3 * cm)],
   ph - 3 * cm - cm / 2)

/-- Lines of wrapped text drawn at a fixed left offset, each at the current
cursor minus a fixed drop, advancing the cursor by 14 per line. -/
def lineOpsAt (tx dy : Rat) : List String → Rat → List DrawOp × Rat
  | [], y => ([], y)
  | l :: rest, y =>
    let p := lineOpsAt tx dy rest (y - 14)
    (DrawOp.drawString tx (y - dy) l :: p.1, p.2)

/-- Embedding of the executive-summary block of _write_visual_pdf: a no-op
for an empty summary, else the rounded box with up to three wrapped lines
and the cursor advanced by 70. -/
def summaryStep (summary : String) (x pw y : Rat) : List DrawOp × Rat :=
  if summary = "" then ([], y)
  else
    let box := [DrawOp.setFillColor "#EBF5FB",
                DrawOp.roundRect (x - 10) (y - 60) (pw - 2 * x + 20) 50 5 true true,
                DrawOp.setStrokeColor "#3498DB",
                DrawOp.setLineWidth 1,
                DrawOp.roundRect (x - 10) (y - 60) (pw - 2 * x + 20) 50 5 false true,
                DrawOp.setFillColor "#2C3E50",
                DrawOp.setFont "Helvetica" 11]
    let lns := (lineOpsAt x 0 ((pyWrap summary 80).take 3) (y - 20)).1
    (box ++ lns ++ [DrawOp.setFillColor "black"], y - 70)

/-- Embedding of the chart block of _write_visual_pdf: charts are attempted
only when the policy is not None, rows exist, row zero is a mapping and
holds a numeric field under a truthy key; the bar chart is drawn for at most
15 rows, the pie chart over the first eight rows when at least three exist. -/
def chartSection (chartType : String) (qd : Option (List RowItem)) (x pw y : Rat) :
    List DrawOp × Rat :=
  match qd with
  | Option.none => ([], y)
  | Option.some items =>
    if chartType ≠ "None" ∧ items ≠ [] then
      match items.head? with
      | Option.some (RowItem.dict r0) =>
        if strOptTruthy (numericField r0) then
          let nf := (numericField r0).getD ""
          let p1 :=
            if (chartType = "Auto" ∨ chartType = "Bar" ∨ chartType = "Both") ∧
                items.length ≤ 15 then
              createBarChart (PyTab.list items) x y (pw - 2 * x) 200
                "Data Distribution" Option.none (Option.some nf)
            else ([], y)
          let p2 :=
            if (chartType = "Auto" ∨ chartType = "Pie" ∨ chartType = "Both") ∧
                3 ≤ items.length then
              createPieChart (PyTab.list (items.take 8)) x p1.2 (pw - 2 * x) 200
                "Top Items Distribution" Option.none (Option.some nf)
            else ([], p1.2)
          (p1.1 ++ p2.1, p2.2)
        else ([], y)
      | _ => ([], y)
    else ([], y)

/-- The five background and border operations plus the textual content of
one metric card, drawn with its top edge at the given card cursor. -/
def metricCardOps (m : Row) (cardX cardY : Rat) : List DrawOp :=
  [DrawOp.setFillColor "#F8F9FA",
   DrawOp.roundRect cardX (cardY - 2 * cm) (7 * cm) (2 * cm) 5 true true,
   DrawOp.setStrokeColor "#BDC3C7",
   DrawOp.setLineWidth (1 / 2),
   DrawOp.roundRect cardX (cardY - 2 * cm) (7 * cm) (2 * cm) 5 false true]
  ++ (match m.take 2 with
      | [] => []
      | (k, v) :: rest =>
        [DrawOp.setFont "Helvetica" 10,
         DrawOp.setFillColor "#7F8C8D",
         DrawOp.drawString (cardX + 10) (cardY - 20) (headerLabel k),
         DrawOp.setFont "Helvetica-Bold" 16,
         DrawOp.setFillColor "#2C3E50",
         DrawOp.drawString (cardX + 10) (cardY - 40) (pyStr v)]
        ++ (match rest with
            | [] => []
            | (k2, v2) :: _ =>
              [DrawOp.setFont "Helvetica" 9,
               DrawOp.setFillColor "#95A5A6",
               DrawOp.drawString (cardX + 10) (cardY - 55)
                 (headerLabel k2 ++ ": " ++ pyStr v2)]))
  ++ [DrawOp.setFillColor "black"]

/-- The metric-card loop of _draw_metric_cards over index and metric pairs:
each card is placed on a two-column grid below the running row origin, a
card whose bottom would fall under three centimeters resets the row origin
to 27 cm with a page break first.  Returns the emitted operations and the
final row origin. -/
def metricLoop (x : Rat) : List (Nat × Row) → Rat → List DrawOp × Rat
  | [], startY => ([], startY)
  | (i, m) :: rest, startY =>
    let cardX := x + ((i % 2 : Nat) : Rat) * (7 * cm + cm / 2)
    let cardY0 := startY - ((i / 2 : Nat) : Rat) * (2 * cm + cm / 2)
    if cardY0 - 2 * cm < 3 * cm then
      let cardY := 27 * cm - ((i / 2 : Nat) : Rat) * (2 * cm + cm / 2)
      let p := metricLoop x rest (27 * cm)
      (DrawOp.showPage :: (metricCardOps m cardX cardY ++ p.1), p.2)
    else
      let p := metricLoop x rest startY
      (metricCardOps m cardX cardY0 ++ p.1, p.2)

/-- Embedding of _draw_metric_cards: no-op on an empty metric list, else the
section title, up to ten cards two per row, and a final cursor computed from
the final row origin and the true number of rows. -/
def drawMetricCards (ms : List Row) (x y : Rat) : List DrawOp × Rat :=
  if ms = [] then ([], y)
  else
    let titleOps := [DrawOp.setFont "Helvetica-Bold" 14,
                     DrawOp.setFillColor "#2C3E50",
                     DrawOp.drawString x y "Key Metrics",
                     DrawOp.setFillColor "black"]
    let p := metricLoop x ((ms.take 10).enum) (y - 25)
    let totalRows := (min ms.length 10 + 1) / 2
    (titleOps ++ p.1, p.2 - ((totalRows : Nat) : Rat) * (2 * cm + cm / 2) - 20)

/-- The four operations redrawing a section title with the continued suffix
at the top of a fresh page. -/
def contBlock (color : String) (x : Rat) (t : String) : List DrawOp :=
  [DrawOp.setFont "Helvetica-Bold" 14,
   DrawOp.setFillColor color,
   DrawOp.drawString x (27 * cm) t,
   DrawOp.setFillColor "black"]

/-- The insight loop of _draw_insights_section over one-based index and
insight pairs: a page break below five centimeters redraws the continued
title, then the numbered badge and the wrapped insight text. -/
def insightsLoop (x : Rat) : List (Nat × Insight) → Rat → List DrawOp × Rat
  | [], y => ([], y)
  | (i, ins) :: rest, y =>
    let br : List DrawOp × Rat :=
      if y < 5 * cm then
        (DrawOp.showPage :: contBlock "#2C3E50" x "Key Insights (continued)", 27 * cm - 20)
      else ([], y)
    let y1 := br.2
    let badge := [DrawOp.setFillColor "#3498DB",
                  DrawOp.circle (x + 10) (y1 - 5) 8 true false,
                  DrawOp.setFillColor "white",
                  DrawOp.setFont "Helvetica-Bold" 10,
                  DrawOp.drawString (x + 7) (y1 - 8) (toString i),
                  DrawOp.setFillColor "#2C3E50",
                  DrawOp.setFont "Helvetica" 10]
    let lns := lineOpsAt (x + 25) 8 (pyWrap (insightText ins) 90) y1
    let p := insightsLoop x rest (lns.2 - 8)
    (br.1 ++ badge ++ lns.1 ++ p.1, p.2)

/-- Embedding of _draw_insights_section: no-op on an empty list, else the
section title and the loop over the first eight insights. -/
def drawInsightsSection (ins : List Insight) (x y : Rat) : List DrawOp × Rat :=
  if ins = [] then ([], y)
  else
    let t := [DrawOp.setFont "Helvetica-Bold" 14,
              DrawOp.setFillColor "#2C3E50",
              DrawOp.drawString x y "Key Insights",
              DrawOp.setFillColor "black"]
    let p := insightsLoop x (List.enumFrom 1 (ins.take 8)) (y - 20)
    (t ++ p.1 ++ [DrawOp.setFillColor "black"], p.2)

/-- The finding loop of _write_visual_pdf: a page break below four
centimeters redraws the continued title, then the bullet dot and the
wrapped finding text. -/
def findingsLoop (x : Rat) : List String → Rat → List DrawOp × Rat
  | [], y => ([], y)
  | f :: rest, y =>
    let br : List DrawOp × Rat :=
      if y < 4 * cm then
        (DrawOp.showPage :: contBlock "#2C3E50" x "Detailed Findings (continued)", 27 * cm - 20)
      else ([], y)
    let y1 := br.2
    let pre := [DrawOp.setFont "Helvetica" 10,
                DrawOp.setFillColor "#3498DB",
                DrawOp.circle (x + 5) (y1 - 4) 2 true false,
                DrawOp.setFillColor "black"]
    let lns := lineOpsAt (x + 15) 5 (pyWrap f 85) y1
    let p := findingsLoop x rest (lns.2 - 5)
    (br.1 ++ pre ++ lns.1 ++ p.1, p.2)

/-- The recommendation loop of _write_visual_pdf: a page break below four
centimeters redraws the continued title, then the checkmark glyph and the
wrapped recommendation text. -/
def recsLoop (x : Rat) : List String → Rat → List DrawOp × Rat
  | [], y => ([], y)
  | rc :: rest, y =>
    let br : List DrawOp × Rat :=
      if y < 4 * cm then
        (DrawOp.showPage :: contBlock "#27AE60" x "Recommendations (continued)", 27 * cm - 20)
      else ([], y)
    let y1 := br.2
    let pre := [DrawOp.setStrokeColor "#27AE60",
                DrawOp.setLineWidth 2,
                DrawOp.line (x + 3) (y1 - 3) (x + 6) (y1 - 6),
                DrawOp.line (x + 6) (y1 - 6) (x + 12) (y1 + 2),
                DrawOp.setStrokeColor "black",
                DrawOp.setLineWidth 1,
                DrawOp.setFont "Helvetica" 10,
                DrawOp.setFillColor "#2C3E50"]
    let lns := lineOpsAt (x + 20) 5 (pyWrap rc 85) y1
    let p := recsLoop x rest (lns.2 - 5)
    (br.1 ++ pre ++ lns.1 ++ p.1, p.2)

/-- The formatted cell text of the table renderer: floats with two decimals
and thousands separators, ints (Python bool included, being an int
subclass) with thousands separators, everything else through str. -/
def tableCellString : PyVal → String
  | PyVal.pyfloat q => pyFormatCommaFixed2 q
  | PyVal.pyint n => pyFormatComma n
  | PyVal.pybool b => pyFormatComma (if b then 1 else 0)
  | v => pyStr v

/-- The formatted cells of one table row; a non-mapping entry models the
AttributeError the source raises on item.get. -/
def rowCellsOf (columns : List String) : RowItem → Option (List String)
  | RowItem.dict r =>
    Option.some (columns.map fun col => tableCellString (rowGetD r col (PyVal.pystr "")))
  | RowItem.nondict _ => Option.none

/-- Height model for the wrapped platypus table: a fixed header row height
plus a fixed height per body row (models Table.wrapOn for single-line cells
with the styles of the source; no verified property depends on the exact
constants). -/
def tableHeightModel (totalRows : Nat) : Rat := 24 + ((totalRows - 1 : Nat) : Rat) * 21

/-- Embedding of _draw_styled_table: title, formatted header and body cells,
an atomic page break when the table would overflow, and a truncation
footnote when rows were cut; Option.none models the errors the source
raises on a non-mapping row or an empty row-zero mapping. -/
def drawStyledTable (data : List RowItem) (x y pw : Rat) (title : String)
    (maxRows : Nat) : Option (List DrawOp × Rat) :=
  if data = [] then Option.some ([], y)
  else
    let titleOps :=
      if title ≠ "" then
        [DrawOp.setFont "Helvetica-Bold" 12,
         DrawOp.setFillColor "#2C3E50",
         DrawOp.drawString x y title,
         DrawOp.setFillColor "black"]
      else []
    let y1 := if title ≠ "" then y - 20 else y
    match data.head? with
    | Option.some (RowItem.dict r0) =>
      if r0 = [] then Option.none
      else
        let columns := r0.map Prod.fst
        let headers := columns.map headerLabel
        match (data.take maxRows).mapM (rowCellsOf columns) with
        | Option.none => Option.none
        | Option.some rows =>
          let cells := headers :: rows
          let h := tableHeightModel cells.length
          let br : List DrawOp × Rat :=
            if y1 - h < 2 * cm then ([DrawOp.showPage], 27 * cm) else ([], y1)
          let y3 := br.2 - h - 10
          let fn : List DrawOp × Rat :=
            if maxRows < data.length then
              ([DrawOp.setFont "Helvetica-Oblique" 8,
                DrawOp.setFillColor "#7F8C8D",
                DrawOp.drawString x y3
                  ("* Showing " ++ toString maxRows ++ " of " ++ toString data.length
                    ++ " total records"),
                DrawOp.setFillColor "black"], y3 - 15)
            else ([], y3)
          Option.some (titleOps ++ br.1 ++ [DrawOp.table cells x (br.2 - h)] ++ fn.1, fn.2)
    | _ => Option.some (titleOps, y1)

/-- The metric-card section of the composer: skipped entirely for empty
metrics, else a page break below ten centimeters or a fixed spacer, then
the card renderer. -/
def metricsStep (ms : List Row) (x y : Rat) : List DrawOp × Rat :=
  if ms = [] then ([], y)
  else
    let pre : List DrawOp × Rat :=
      if y < 10 * cm then ([DrawOp.showPage], 27 * cm) else ([], y - 15)
    let p := drawMetricCards ms x pre.2
    (pre.1 ++ p.1, p.2)

/-- The table section of the composer: skipped for absent or empty query
data, else the spacer rule and the styled table titled Detailed Results
with a fifteen-row cap. -/
def tableStep (qd : Option (List RowItem)) (x pw y : Rat) : Option (List DrawOp × Rat) :=
  match qd with
  | Option.none => Option.some ([], y)
  | Option.some items =>
    if items = [] then Option.some ([], y)
    else
      let pre : List DrawOp × Rat :=
        if y < 10 * cm then ([DrawOp.showPage], 27 * cm) else ([], y - 15)
      match drawStyledTable items x pre.2 pw "Detailed Results" 15 with
      | Option.none => Option.none
      | Option.some p => Option.some (pre.1 ++ p.1, p.2)

/-- The insights section of the composer: skipped for empty insights, else
the spacer rule and the insights renderer. -/
def insightsStep (ins : List Insight) (x y : Rat) : List DrawOp × Rat :=
  if ins = [] then ([], y)
  else
    let pre : List DrawOp × Rat :=
      if y < 10 * cm then ([DrawOp.showPage], 27 * cm) else ([], y - 15)
    let p := drawInsightsSection ins x pre.2
    (pre.1 ++ p.1, p.2)

/-- The findings section of the composer: skipped for empty findings, else
the spacer rule with an eight-centimeter threshold, the section title and
the loop over the first ten findings. -/
def findingsStep (fs : List String) (x y : Rat) : List DrawOp × Rat :=
  if fs = [] then ([], y)
  else
    let pre : List DrawOp × Rat :=
      if y < 8 * cm then ([DrawOp.showPage], 27 * cm) else ([], y - 15)
    let t := [DrawOp.setFont "Helvetica-Bold" 14,
              DrawOp.setFillColor "#2C3E50",
              DrawOp.drawString x pre.2 "Detailed Findings",
              DrawOp.setFillColor "black"]
    let p := findingsLoop x (fs.take 10) (pre.2 - 20)
    (pre.1 ++ t ++ p.1, p.2)

/-- The recommendations section of the composer: skipped for empty
recommendations, else the spacer rule with an eight-centimeter threshold,
the section title and the loop over the first eight recommendations. -/
def recsStep (rcs : List String) (x y : Rat) : List DrawOp × Rat :=
  if rcs = [] then ([], y)
  else
    let pre : List DrawOp × Rat :=
      if y < 8 * cm then ([DrawOp.showPage], 27 * cm) else ([], y - 15)
    let t := [DrawOp.setFont "Helvetica-Bold" 14,
              DrawOp.setFillColor "#27AE60",
              DrawOp.drawString x pre.2 "Recommendations",
              DrawOp.setFillColor "black"]
    let p := recsLoop x (rcs.take 8) (pre.2 - 20)
    (pre.1 ++ t ++ p.1 ++ [DrawOp.setFillColor "black"], p.2)

/-- Continuation lines of a two-column item, one per remaining wrapped
line, advancing the column cursor by 12 per line. -/
def colContLines (x1 : Rat) : List String → Rat → List DrawOp × Rat
  | [], ty => ([], ty)
  | l :: rest, ty =>
    let p := colContLines x1 rest (ty - 12)
    (DrawOp.drawString x1 ty l :: p.1, p.2)

/-- The item loop of one column of the limitations and next-steps block:
each item wraps at width 40, the first line carries the column marker, and
a small gap follows each item. -/
def colItemOps (x0 x1 : Rat) (mark : String) : List String → Rat → List DrawOp × Rat
  | [], ty => ([], ty)
  | it :: rest, ty =>
    match pyWrap it 40 with
    | [] => colItemOps x0 x1 mark rest ty
    | w0 :: ws =>
      let p1 := colContLines x1 ws (ty - 12)
      let p2 := colItemOps x0 x1 mark rest (p1.2 - 3)
      (DrawOp.drawString x0 ty (mark ++ w0) :: (p1.1 ++ p2.1), p2.2)

/-- The two-column limitations and next-steps section of the composer: the
two columns share the starting cursor and the final cursor is the lower of
the two minus a gap. -/
def limNextStep (lims ns : List String) (x pw y : Rat) : List DrawOp × Rat :=
  if lims = [] ∧ ns = [] then ([], y)
  else
    let pre : List DrawOp × Rat :=
      if y < 10 * cm then ([DrawOp.showPage], 27 * cm) else ([], y - 15)
    let y1 := pre.2
    let colW := (pw - 2 * x) / 2 - 20
    let limP : List DrawOp × Rat :=
      if lims ≠ [] then
        let hdr := [DrawOp.setFont "Helvetica-Bold" 12,
                    DrawOp.setFillColor "#E67E22",
                    DrawOp.drawString x y1 "Limitations",
                    DrawOp.setFillColor "black",
                    DrawOp.setFont "Helvetica" 9]
        let p := colItemOps (x + 5) (x + 12) "• " (lims.take 5) (y1 - 18)
        (hdr ++ p.1, min y1 p.2)
      else ([], y1)
    let nsP : List DrawOp × Rat :=
      if ns ≠ [] then
        let hdr := [DrawOp.setFont "Helvetica-Bold" 12,
                    DrawOp.setFillColor "#8E44AD",
                    DrawOp.drawString (x + colW + 40) y1 "Next Steps",
                    DrawOp.setFillColor "black",
                    DrawOp.setFont "Helvetica" 9]
        let p := colItemOps (x + colW + 45) (x + colW + 52) "→ " (ns.take 5) (y1 - 18)
        (hdr ++ p.1, min limP.2 p.2)
      else ([], limP.2)
    (pre.1 ++ limP.1 ++ nsP.1, nsP.2 - 10)

/-- The footer of the composer: data-source label, page indicator and the
footer rule, at fixed positions on the current page. -/
def footerOps (ds : String) (x pw : Rat) : List DrawOp :=
  [DrawOp.setFont "Helvetica-Oblique" 8,
   DrawOp.setFillColor "#95A5A6",
   DrawOp.drawString x (3 * cm / 2) ("Data Source: " ++ ds),
   DrawOp.drawString (pw - 6 * cm) (3 * cm / 2) "Page 1",
   DrawOp.setStrokeColor "#BDC3C7",
   DrawOp.setLineWidth (1 / 2),
   DrawOp.line x (2 * cm) (pw - x) (2 * cm)]

/-- Embedding of _write_visual_pdf: the full drawing-operation sequence of
one render, with the formatted generation date passed in as a string;
Option.none models the rendering failures of the table block. -/
def writeVisualPdf (now : String) (r : Report) (qd : Option (List RowItem))
    (chartType : String) : Option (List DrawOp) :=
  let x := 2 * cm
  let hdr := headerOps now r.title pageWidth pageHeight
  let s := summaryStep r.executive_summary x pageWidth hdr.2
  let c := chartSection chartType qd x pageWidth s.2
  let m := metricsStep r.key_metrics x c.2
  match tableStep qd x pageWidth m.2 with
  | Option.none => Option.none
  | Option.some t =>
    let i := insightsStep r.insights x t.2
    let f := findingsStep r.findings x i.2
    let rc := recsStep r.recommendations x f.2
    let ln := limNextStep r.limitations r.next_steps x pageWidth rc.2
    Option.some (hdr.1 ++ s.1 ++ c.1 ++ m.1 ++ t.1 ++ i.1 ++ f.1 ++ rc.1 ++ ln.1
      ++ footerOps r.dataset_used x pageWidth)

/-- The structured summary mapping assembled by build_pdf after a
successful render. -/
structure BuildInfo where
  pdf_path : String
  file_name : String
  folder : String
  metrics_count : Nat
  has_charts : Bool
  total_insights : Nat
  total_findings : Nat
  data_rows : Option Nat
deriving DecidableEq, Repr

/-- Embedding of the info mapping of build_pdf: has_charts records only
that extracted query data is present and non-empty, and data_rows is added
only when the query data is truthy. -/
def buildPdfInfo (r : Report) (qd : Option (List RowItem))
    (outPath fileName folder : String) : BuildInfo :=
  ⟨outPath, fileName, folder,
   r.key_metrics.length,
   (match qd with
    | Option.none => false
    | Option.some l => decide (0 < l.length)),
   r.insights.length,
   r.findings.length,
   (match qd with
    | Option.some l => if l = [] then Option.none else Option.some l.length
    | Option.none => Option.none)⟩

/-- Whether an operation draws a bar chart. -/
def isBarOp : DrawOp → Bool
  | DrawOp.barDrawing _ _ _ _ _ _ _ => true
  | _ => false

/-- Whether an operation draws a pie chart. -/
def isPieOp : DrawOp → Bool
  | DrawOp.pieDrawing _ _ _ _ _ _ _ => true
  | _ => false

/-- Whether an operation draws any chart. -/
def isChartOp (op : DrawOp) : Bool := isBarOp op || isPieOp op

/-- Number of bar charts drawn in an operation sequence. -/
def barCount (ops : List DrawOp) : Nat := ops.countP isBarOp

/-- Number of pie charts drawn in an operation sequence. -/
def pieCount (ops : List DrawOp) : Nat := ops.countP isPieOp

/-- Number of charts drawn in an operation sequence. -/
def chartCount (ops : List DrawOp) : Nat := ops.countP isChartOp

/-- Number of page breaks in an operation sequence. -/
def spCount (ops : List DrawOp) : Nat := ops.countP (fun op => op == DrawOp.showPage)

/-- The strings drawn at a given left position, in drawing order. -/
def textsAt (x0 : Rat) (ops : List DrawOp) : List String :=
  ops.filterMap fun op =>
    match op with
    | DrawOp.drawString sx _ s => if sx = x0 then Option.some s else Option.none
    | _ => Option.none

/-- The vertical positions of the filled card-background rectangles, in
drawing order (one per metric card). -/
def cardRectYs (ops : List DrawOp) : List Rat :=
  ops.filterMap fun op =>
    match op with
    | DrawOp.roundRect _ ry _ _ _ fill _ => if fill then Option.some ry else Option.none
    | _ => Option.none

/-- Number of circles of a given radius in an operation sequence (the list
bullets and badges are circles of fixed distinct radii). -/
def circleCount (r0 : Rat) (ops : List DrawOp) : Nat :=
  ops.countP fun op =>
    match op with
    | DrawOp.circle _ _ rr _ _ => rr == r0
    | _ => false

/-- Number of stroked line segments in an operation sequence (each
recommendation checkmark consists of two). -/
def segCount (ops : List DrawOp) : Nat :=
  ops.countP fun op =>
    match op with
    | DrawOp.line _ _ _ _ => true
    | _ => false

/-- Every page break in the sequence is immediately followed by the given
continuation block. -/
def contAfter (cb : List DrawOp) : List DrawOp → Prop
  | [] => True
  | op :: rest => (op = DrawOp.showPage → rest.take cb.length = cb) ∧ contAfter cb rest

/-- The row position used by the metric-card loop for the card of index i
when the running row origin is s. -/
def cardPos (s : Rat) (i : Nat) : Rat := s - ((i / 2 : Nat) : Rat) * (2 * cm + cm / 2)

/-- Whether the card of index i breaks the page when placed from the row
origin s: its bottom edge would fall below three centimeters. -/
def cardBad (s : Rat) (i : Nat) : Prop := cardPos s i - 2 * cm < 3 * cm

instance (s : Rat) (i : Nat) : Decidable (cardBad s i) := by
  unfold cardBad; infer_instance

/-- Rows of a row-item list that are mappings, in order. -/
def dictRows (items : List RowItem) : List Row :=
  items.filterMap fun it =>
    match it with
    | RowItem.dict r => Option.some r
    | RowItem.nondict _ => Option.none

/-- No operation of the sequence draws a chart. -/
def ChartFree (l : List DrawOp) : Prop := ∀ a ∈ l, isChartOp a = false

/-- No operation of the sequence is a page break. -/
def SPFree (l : List DrawOp) : Prop := ∀ a ∈ l, a ≠ DrawOp.showPage

/-- Whether an operation draws a text string. -/
def isDS : DrawOp → Bool
  | DrawOp.drawString _ _ _ => true
  | _ => false

/-- Example row-set for concrete evaluations: three mapping rows carrying a
text label under the first key and an integer under the second. -/
def wRows : List RowItem :=
  [RowItem.dict [("k", PyVal.pystr "a"), ("v", PyVal.pyint 5)],
   RowItem.dict [("k", PyVal.pystr "b"), ("v", PyVal.pyint 7)],
   RowItem.dict [("k", PyVal.pystr "c"), ("v", PyVal.pyint 2)]]

/-- Example row-set of three mapping rows whose only field is numeric and
always zero, so the prepared pie values sum to zero. -/
def wRowsZeroSum : List RowItem :=
  [RowItem.dict [("a", PyVal.pyint 0)],
   RowItem.dict [("a", PyVal.pyint 0)],
   RowItem.dict [("a", PyVal.pyint 0)]]

/-- Example row-set whose first row maps the empty-string key to a text and
a nonempty key to a number, so the key field is inferable but falsy. -/
def wRowsEmptyKey : List RowItem :=
  [RowItem.dict [("", PyVal.pystr "x"), ("b", PyVal.pyint 5)]]

/-- A minimal example report carrying only a title. -/
def wReport : Report := ⟨"T", "", "", "Data Analysis", [], [], [], [], [], []⟩

/-- Example row-set whose first row carries no numeric-valued field. -/
def wRowsNoNum : List RowItem := [RowItem.dict [("k", PyVal.pystr "a")]]

/-- Six identical one-entry metric mappings (three card rows). -/
def wMetrics6 : List Row :=
  [[("m", PyVal.pyint 1)], [("m", PyVal.pyint 1)], [("m", PyVal.pyint 1)],
   [("m", PyVal.pyint 1)], [("m", PyVal.pyint 1)], [("m", PyVal.pyint 1)]]

/-- The operations drawn after the first page break of a sequence. -/
def afterFirstBreak (ops : List DrawOp) : List DrawOp :=
  (ops.dropWhile (fun op => !(op == DrawOp.showPage))).drop 1

theorem chartCount_eq_zero (l : List DrawOp) (h : ChartFree l) : chartCount l = 0 := by
  rw [chartCount, List.countP_eq_zero]
  intro a ha
  simp [h a ha]

theorem barCount_eq_zero (l : List DrawOp) (h : ChartFree l) : barCount l = 0 := by
  rw [barCount, List.countP_eq_zero]
  intro a ha hb
  have := h a ha
  simp [isChartOp, hb] at this

theorem pieCount_eq_zero (l : List DrawOp) (h : ChartFree l) : pieCount l = 0 := by
  rw [pieCount, List.countP_eq_zero]
  intro a ha hb
  have := h a ha
  simp [isChartOp, hb] at this

theorem chartFree_append {a b : List DrawOp} (ha : ChartFree a) (hb : ChartFree b) :
    ChartFree (a ++ b) := by
  intro op hop
  rcases List.mem_append.mp hop with h | h
  · exact ha op h
  · exact hb op h

theorem chartFree_nil : ChartFree [] := by intro a ha; cases ha

theorem barCount_append (a b : List DrawOp) :
    barCount (a ++ b) = barCount a + barCount b := List.countP_append _ _ _

theorem pieCount_append (a b : List DrawOp) :
    pieCount (a ++ b) = pieCount a + pieCount b := List.countP_append _ _ _

theorem chartCount_append (a b : List DrawOp) :
    chartCount (a ++ b) = chartCount a + chartCount b := List.countP_append _ _ _

theorem spCount_append (a b : List DrawOp) :
    spCount (a ++ b) = spCount a + spCount b := List.countP_append _ _ _

theorem chartFree_cons {op : DrawOp} {l : List DrawOp} :
    ChartFree (op :: l) ↔ isChartOp op = false ∧ ChartFree l := by
  constructor
  · intro h
    exact ⟨h op (List.mem_cons_self op l), fun a ha => h a (List.mem_cons_of_mem op ha)⟩
  · rintro ⟨h1, h2⟩ a ha
    rcases List.mem_cons.mp ha with rfl | ha
    · exact h1
    · exact h2 a ha

theorem chartFree_lineOpsAt (tx dy : Rat) (ls : List String) (y : Rat) :
    ChartFree (lineOpsAt tx dy ls y).1 := by
  induction ls generalizing y with
  | nil => exact chartFree_nil
  | cons l rest ih =>
    simp only [lineOpsAt]
    rw [chartFree_cons]
    exact ⟨rfl, ih (y - 14)⟩

theorem chartFree_headerOps (now t : String) (pw ph : Rat) :
    ChartFree (headerOps now t pw ph).1 := by
  simp [headerOps, chartFree_cons, chartFree_nil, isChartOp, isBarOp, isPieOp]

theorem chartFree_summaryStep (s : String) (x pw y : Rat) :
    ChartFree (summaryStep s x pw y).1 := by
  by_cases hs : s = ""
  · simp only [summaryStep, hs, ite_true]; exact chartFree_nil
  · simp only [summaryStep, hs, ite_false]
    refine chartFree_append (chartFree_append ?_ (chartFree_lineOpsAt _ _ _ _)) ?_ <;>
      simp [chartFree_cons, chartFree_nil, isChartOp, isBarOp, isPieOp]

theorem chartFree_metricCardOps (m : Row) (cx cy : Rat) :
    ChartFree (metricCardOps m cx cy) := by
  rcases m with _ | ⟨⟨k, v⟩, rest⟩
  · simp [metricCardOps, chartFree_cons, chartFree_nil, isChartOp, isBarOp, isPieOp]
  · rcases rest with _ | ⟨⟨k2, v2⟩, rest2⟩ <;>
      simp [metricCardOps, chartFree_cons, chartFree_nil, isChartOp, isBarOp, isPieOp]

theorem chartFree_metricLoop (x : Rat) (ps : List (Nat × Row)) (s : Rat) :
    ChartFree (metricLoop x ps s).1 := by
  induction ps generalizing s with
  | nil => exact chartFree_nil
  | cons p rest ih =>
    rcases p with ⟨i, m⟩
    simp only [metricLoop]
    by_cases hb : (s - ((i / 2 : Nat) : Rat) * (2 * cm + cm / 2)) - 2 * cm < 3 * cm
    · rw [if_pos hb, chartFree_cons]
      exact ⟨rfl, chartFree_append (chartFree_metricCardOps m _ _) (ih (27 * cm))⟩
    · rw [if_neg hb]
      exact chartFree_append (chartFree_metricCardOps m _ _) (ih s)

theorem chartFree_drawMetricCards (ms : List Row) (x y : Rat) :
    ChartFree (drawMetricCards ms x y).1 := by
  by_cases h : ms = []
  · simp only [drawMetricCards, h, ite_true]; exact chartFree_nil
  · simp only [drawMetricCards, h, ite_false]
    refine chartFree_append ?_ (chartFree_metricLoop _ _ _)
    simp [chartFree_cons, chartFree_nil, isChartOp, isBarOp, isPieOp]

theorem chartFree_spacer (b : Prop) [Decidable b] :
    ChartFree (if b then [DrawOp.showPage] else []) := by
  by_cases hb : b
  · rw [if_pos hb, chartFree_cons]
    exact ⟨rfl, chartFree_nil⟩
  · rw [if_neg hb]
    exact chartFree_nil

theorem chartFree_metricsStep (ms : List Row) (x y : Rat) :
    ChartFree (metricsStep ms x y).1 := by
  by_cases h : ms = []
  · simp only [metricsStep, h, ite_true]; exact chartFree_nil
  · simp only [metricsStep, h, ite_false]
    by_cases hy : y < 10 * cm <;> simp only [hy, ite_true, ite_false] <;>
      refine chartFree_append ?_ (chartFree_drawMetricCards _ _ _)
    · rw [chartFree_cons]; exact ⟨rfl, chartFree_nil⟩
    · exact chartFree_nil

theorem chartFree_append_iff {a b : List DrawOp} :
    ChartFree (a ++ b) ↔ ChartFree a ∧ ChartFree b := by
  constructor
  · intro h
    exact ⟨fun op hop => h op (List.mem_append.mpr (Or.inl hop)),
           fun op hop => h op (List.mem_append.mpr (Or.inr hop))⟩
  · rintro ⟨h1, h2⟩
    exact chartFree_append h1 h2

theorem chartFree_nil_iff : ChartFree [] ↔ True := by
  simp only [iff_true]
  exact chartFree_nil

theorem chartFree_insightsLoop (x : Rat) (ps : List (Nat × Insight)) (y : Rat) :
    ChartFree (insightsLoop x ps y).1 := by
  induction ps generalizing y with
  | nil => exact chartFree_nil
  | cons p rest ih =>
    rcases p with ⟨i, ins⟩
    simp only [insightsLoop, contBlock]
    by_cases hb : y < 5 * cm <;>
      simp [hb, chartFree_cons, chartFree_append_iff, chartFree_nil_iff,
        isChartOp, isBarOp, isPieOp, chartFree_lineOpsAt, ih]

theorem chartFree_drawInsightsSection (ins : List Insight) (x y : Rat) :
    ChartFree (drawInsightsSection ins x y).1 := by
  by_cases h : ins = [] <;>
    simp [drawInsightsSection, h, chartFree_cons, chartFree_append_iff, chartFree_nil_iff,
      isChartOp, isBarOp, isPieOp, chartFree_insightsLoop, chartFree_nil]

theorem chartFree_insightsStep (ins : List Insight) (x y : Rat) :
    ChartFree (insightsStep ins x y).1 := by
  by_cases h : ins = [] <;> by_cases hy : y < 10 * cm <;>
    simp [insightsStep, h, hy, chartFree_cons, chartFree_append_iff, chartFree_nil_iff,
      isChartOp, isBarOp, isPieOp, chartFree_drawInsightsSection, chartFree_nil]

theorem chartFree_findingsLoop (x : Rat) (fs : List String) (y : Rat) :
    ChartFree (findingsLoop x fs y).1 := by
  induction fs generalizing y with
  | nil => exact chartFree_nil
  | cons f rest ih =>
    simp only [findingsLoop, contBlock]
    by_cases hb : y < 4 * cm <;>
      simp [hb, chartFree_cons, chartFree_append_iff, chartFree_nil_iff,
        isChartOp, isBarOp, isPieOp, chartFree_lineOpsAt, ih]

theorem chartFree_findingsStep (fs : List String) (x y : Rat) :
    ChartFree (findingsStep fs x y).1 := by
  by_cases h : fs = [] <;> by_cases hy : y < 8 * cm <;>
    simp [findingsStep, h, hy, chartFree_cons, chartFree_append_iff, chartFree_nil_iff,
      isChartOp, isBarOp, isPieOp, chartFree_findingsLoop, chartFree_nil]

theorem chartFree_recsLoop (x : Rat) (rcs : List String) (y : Rat) :
    ChartFree (recsLoop x rcs y).1 := by
  induction rcs generalizing y with
  | nil => exact chartFree_nil
  | cons rc rest ih =>
    simp only [recsLoop, contBlock]
    by_cases hb : y < 4 * cm <;>
      simp [hb, chartFree_cons, chartFree_append_iff, chartFree_nil_iff,
        isChartOp, isBarOp, isPieOp, chartFree_lineOpsAt, ih]

theorem chartFree_recsStep (rcs : List String) (x y : Rat) :
    ChartFree (recsStep rcs x y).1 := by
  by_cases h : rcs = [] <;> by_cases hy : y < 8 * cm <;>
    simp [recsStep, h, hy, chartFree_cons, chartFree_append_iff, chartFree_nil_iff,
      isChartOp, isBarOp, isPieOp, chartFree_recsLoop, chartFree_nil]

theorem chartFree_colContLines (x1 : Rat) (ls : List String) (ty : Rat) :
    ChartFree (colContLines x1 ls ty).1 := by
  induction ls generalizing ty with
  | nil => exact chartFree_nil
  | cons l rest ih =>
    simp only [colContLines]
    rw [chartFree_cons]
    exact ⟨rfl, ih (ty - 12)⟩

theorem chartFree_colItemOps (x0 x1 : Rat) (mark : String) (its : List String) (ty : Rat) :
    ChartFree (colItemOps x0 x1 mark its ty).1 := by
  induction its generalizing ty with
  | nil => exact chartFree_nil
  | cons it rest ih =>
    simp only [colItemOps]
    rcases hw : pyWrap it 40 with _ | ⟨w0, ws⟩
    · exact ih ty
    · rw [chartFree_cons]
      exact ⟨rfl, chartFree_append (chartFree_colContLines _ _ _) (ih _)⟩

theorem chartFree_limNextStep (lims ns : List String) (x pw y : Rat) :
    ChartFree (limNextStep lims ns x pw y).1 := by
  by_cases h : lims = [] ∧ ns = []
  · simp only [limNextStep, h, ite_true]
    exact chartFree_nil
  · simp only [limNextStep, h, ite_false]
    by_cases hy : y < 10 * cm <;> by_cases hl : lims ≠ [] <;> by_cases hn : ns ≠ [] <;>
      simp [hy, hl, hn, chartFree_cons, chartFree_append_iff, chartFree_nil_iff,
        isChartOp, isBarOp, isPieOp, chartFree_colItemOps, chartFree_nil]

theorem chartFree_footerOps (ds : String) (x pw : Rat) :
    ChartFree (footerOps ds x pw) := by
  simp [footerOps, chartFree_cons, chartFree_nil_iff, isChartOp, isBarOp, isPieOp]

theorem chartFree_ite (b : Prop) [Decidable b] (l1 l2 : List DrawOp)
    (h1 : ChartFree l1) (h2 : ChartFree l2) : ChartFree (if b then l1 else l2) := by
  by_cases hb : b
  · rw [if_pos hb]; exact h1
  · rw [if_neg hb]; exact h2

theorem chartFree_ite_pair (b : Prop) [Decidable b] (l1 l2 : List DrawOp) (s1 s2 : Rat)
    (h1 : ChartFree l1) (h2 : ChartFree l2) :
    ChartFree (if b then (l1, s1) else (l2, s2)).1 := by
  by_cases hb : b
  · rw [if_pos hb]; exact h1
  · rw [if_neg hb]; exact h2

theorem chartFree_drawStyledTable (data : List RowItem) (x y pw : Rat) (t : String)
    (mr : Nat) (p : List DrawOp × Rat) (hp : drawStyledTable data x y pw t mr = Option.some p) :
    ChartFree p.1 := by
  by_cases h : data = []
  · simp only [drawStyledTable, h, ite_true, Option.some.injEq] at hp
    rw [← hp]
    exact chartFree_nil
  · simp only [drawStyledTable, h, ite_false] at hp
    rcases hh : data.head? with _ | ⟨it⟩ <;> rw [hh] at hp
    · simp only [Option.some.injEq] at hp
      rw [← hp]
      refine chartFree_ite _ _ _ ?_ chartFree_nil
      simp [chartFree_cons, chartFree_nil_iff, isChartOp, isBarOp, isPieOp, chartFree_nil]
    · rcases it with r0 | v
      · by_cases hr : r0 = []
        · simp only [hr, ite_true] at hp
          cases hp
        · simp only [hr, ite_false] at hp
          rcases hm : (data.take mr).mapM (rowCellsOf (r0.map Prod.fst)) with _ | ⟨rows⟩ <;>
            rw [hm] at hp
          · cases hp
          · simp only [Option.some.injEq] at hp
            rw [← hp]
            refine chartFree_append (chartFree_append
              (chartFree_append (chartFree_ite _ _ _ ?_ chartFree_nil)
                (chartFree_ite_pair _ _ _ _ _ ?_ chartFree_nil)) ?_)
              (chartFree_ite_pair _ _ _ _ _ ?_ chartFree_nil)
            · simp [chartFree_cons, chartFree_nil_iff, isChartOp, isBarOp, isPieOp,
                chartFree_nil]
            · rw [chartFree_cons]
              exact ⟨rfl, chartFree_nil⟩
            · rw [chartFree_cons]
              exact ⟨rfl, chartFree_nil⟩
            · simp [chartFree_cons, chartFree_nil_iff, isChartOp, isBarOp, isPieOp,
                chartFree_nil]
      · simp only [Option.some.injEq] at hp
        rw [← hp]
        refine chartFree_ite _ _ _ ?_ chartFree_nil
        simp [chartFree_cons, chartFree_nil_iff, isChartOp, isBarOp, isPieOp, chartFree_nil]

theorem chartFree_tableStep (qd : Option (List RowItem)) (x pw y : Rat)
    (p : List DrawOp × Rat) (hp : tableStep qd x pw y = Option.some p) : ChartFree p.1 := by
  rcases qd with _ | ⟨items⟩
  · simp only [tableStep, Option.some.injEq] at hp
    rw [← hp]
    exact chartFree_nil
  · simp only [tableStep] at hp
    by_cases h : items = []
    · simp only [h, ite_true, Option.some.injEq] at hp
      rw [← hp]
      exact chartFree_nil
    · simp only [h, ite_false] at hp
      rcases hd : drawStyledTable items x
          (if y < 10 * cm then (([DrawOp.showPage] : List DrawOp), 27 * cm)
           else ([], y - 15)).2 pw "Detailed Results" 15 with _ | ⟨q⟩ <;> rw [hd] at hp
      · cases hp
      · simp only [Option.some.injEq] at hp
        rw [← hp]
        refine chartFree_append ?_ (chartFree_drawStyledTable _ _ _ _ _ _ _ hd)
        by_cases hy : y < 10 * cm <;> simp only [hy, ite_true, ite_false]
        · rw [chartFree_cons]
          exact ⟨rfl, chartFree_nil⟩
        · exact chartFree_nil

theorem chartSection_none (qd : Option (List RowItem)) (x pw y : Rat) :
    chartSection "None" qd x pw y = ([], y) := by
  rcases qd with _ | ⟨items⟩
  · rfl
  · simp [chartSection]

theorem chartSection_no_numeric (ct : String) (items : List RowItem) (r0 : Row)
    (x pw y : Rat) (hh : items.head? = Option.some (RowItem.dict r0))
    (hn : strOptTruthy (numericField r0) = false) :
    chartSection ct (Option.some items) x pw y = ([], y) := by
  simp only [chartSection, hh, hn]
  by_cases hg : ct ≠ "None" ∧ items ≠ [] <;> simp [hg]

theorem pieCount_createBarChart (data : PyTab) (x y w h : Rat) (t : String)
    (kf vf : Option String) : pieCount (createBarChart data x y w h t kf vf).1 = 0 := by
  rcases data with ⟨items⟩ | ⟨v⟩
  · by_cases he : items = []
    · simp [createBarChart, he]; rfl
    · simp only [createBarChart, he, ite_false]
      by_cases hk : strOptTruthy (effectiveKeyField items kf) ∧
          strOptTruthy (effectiveValueField items vf)
      · simp only [hk, ite_true]
        by_cases hp : barPairs (items.take 10) ((effectiveKeyField items kf).getD "")
            ((effectiveValueField items vf).getD "") = [] <;>
          simp [hp, pieCount, List.countP_cons, isPieOp]
      · simp only [hk, ite_false]; rfl
  · rfl

theorem barCount_createPieChart (data : PyTab) (x y w h : Rat) (t : String)
    (kf vf : Option String) : barCount (createPieChart data x y w h t kf vf).1 = 0 := by
  rcases data with ⟨items⟩ | ⟨v⟩
  · by_cases he : items = []
    · simp [createPieChart, he]; rfl
    · simp only [createPieChart, he, ite_false]
      by_cases hk : strOptTruthy (effectiveKeyField items kf) ∧
          strOptTruthy (effectiveValueField items vf)
      · simp only [hk, ite_true]
        by_cases hp : piePairs (items.take 8) ((effectiveKeyField items kf).getD "")
            ((effectiveValueField items vf).getD "") = [] ∨
            ((piePairs (items.take 8) ((effectiveKeyField items kf).getD "")
              ((effectiveValueField items vf).getD "")).map Prod.snd).sum = 0 <;>
          simp [hp, barCount, List.countP_cons, isBarOp]
      · simp only [hk, ite_false]; rfl
  · rfl

theorem barPairs_ne_nil (items : List RowItem) (r0 : Row) (kf vf : String)
    (hh : items.head? = Option.some (RowItem.dict r0)) :
    barPairs (items.take 10) kf vf ≠ [] := by
  rcases items with _ | ⟨it, rest⟩
  · cases hh
  · simp only [List.head?_cons, Option.some.injEq] at hh
    subst hh
    simp [barPairs]

theorem piePairs_ne_nil (items : List RowItem) (r0 : Row) (kf vf : String)
    (hh : items.head? = Option.some (RowItem.dict r0)) :
    piePairs (items.take 8) kf vf ≠ [] := by
  rcases items with _ | ⟨it, rest⟩
  · cases hh
  · simp only [List.head?_cons, Option.some.injEq] at hh
    subst hh
    simp [piePairs]

theorem createBarChart_emits_one (items : List RowItem) (r0 : Row) (k0 nf : String)
    (ks : List String) (x y w h : Rat) (t : String)
    (hh : items.head? = Option.some (RowItem.dict r0))
    (hkeys : r0.map Prod.fst = k0 :: ks) (hk0 : k0 ≠ "") (hnf : nf ≠ "") :
    barCount (createBarChart (PyTab.list items) x y w h t Option.none
      (Option.some nf)).1 = 1 := by
  have hne : items ≠ [] := by
    rcases items with _ | ⟨it, rest⟩
    · cases hh
    · simp
  have hkf : effectiveKeyField items Option.none = Option.some k0 := by
    simp only [effectiveKeyField, strOptTruthy, ite_false, Bool.false_eq_true, if_false, hh,
      hkeys]
  have hvf : effectiveValueField items (Option.some nf) = Option.some nf := by
    simp only [effectiveValueField, strOptTruthy, hnf]
    simp
  simp only [createBarChart, hne, ite_false, hkf, hvf]
  have htr : strOptTruthy (Option.some k0) = true ∧ strOptTruthy (Option.some nf) = true := by
    simp [strOptTruthy, hk0, hnf]
  simp only [htr.1, htr.2, and_self, ite_true]
  have hp := barPairs_ne_nil items r0 ((Option.some k0).getD "") ((Option.some nf).getD "") hh
  simp only [hp, ite_false]
  simp [barCount, List.countP_cons, isBarOp]

theorem createPieChart_emits_one (items : List RowItem) (r0 : Row) (k0 nf : String)
    (ks : List String) (x y w h : Rat) (t : String)
    (hh : items.head? = Option.some (RowItem.dict r0))
    (hkeys : r0.map Prod.fst = k0 :: ks) (hk0 : k0 ≠ "") (hnf : nf ≠ "")
    (hsum : ((piePairs (items.take 8) k0 nf).map Prod.snd).sum ≠ 0) :
    pieCount (createPieChart (PyTab.list items) x y w h t Option.none
      (Option.some nf)).1 = 1 := by
  have hne : items ≠ [] := by
    rcases items with _ | ⟨it, rest⟩
    · cases hh
    · simp
  have hkf : effectiveKeyField items Option.none = Option.some k0 := by
    simp only [effectiveKeyField, strOptTruthy, ite_false, Bool.false_eq_true, if_false, hh,
      hkeys]
  have hvf : effectiveValueField items (Option.some nf) = Option.some nf := by
    simp only [effectiveValueField, strOptTruthy, hnf]
    simp
  simp only [createPieChart, hne, ite_false, hkf, hvf]
  have htr : strOptTruthy (Option.some k0) = true ∧ strOptTruthy (Option.some nf) = true := by
    simp [strOptTruthy, hk0, hnf]
  simp only [htr.1, htr.2, and_self, ite_true]
  have hp := piePairs_ne_nil items r0 ((Option.some k0).getD "") ((Option.some nf).getD "") hh
  simp only [Option.getD_some] at hp ⊢
  simp only [hp, hsum, or_self, ite_false]
  simp [pieCount, List.countP_cons, isPieOp]

theorem chartSection_bar_one (ct : String) (items : List RowItem) (r0 : Row)
    (k0 nf : String) (ks : List String) (x pw y : Rat)
    (hh : items.head? = Option.some (RowItem.dict r0))
    (hkeys : r0.map Prod.fst = k0 :: ks) (hk0 : k0 ≠ "")
    (hnf : numericField r0 = Option.some nf) (hnf0 : nf ≠ "")
    (hct : ct = "Auto" ∨ ct = "Bar" ∨ ct = "Both") (hlen : items.length ≤ 15) :
    barCount (chartSection ct (Option.some items) x pw y).1 = 1 := by
  have hctn : ct ≠ "None" := by
    rcases hct with rfl | rfl | rfl <;> decide
  have hne : items ≠ [] := by
    rcases items with _ | ⟨it, rest⟩
    · cases hh
    · simp
  simp only [chartSection, hh, hnf]
  have htr : strOptTruthy (Option.some nf) = true := by simp [strOptTruthy, hnf0]
  simp only [hctn, hne, ne_eq, not_false_iff, and_self, ite_true, htr, Option.getD_some]
  rw [barCount_append]
  have hbar : (ct = "Auto" ∨ ct = "Bar" ∨ ct = "Both") ∧ items.length ≤ 15 := ⟨hct, hlen⟩
  rw [if_pos hbar]
  rw [createBarChart_emits_one items r0 k0 nf ks x y (pw - 2 * x) 200
    "Data Distribution" hh hkeys hk0 hnf0]
  by_cases hpie : (ct = "Auto" ∨ ct = "Pie" ∨ ct = "Both") ∧ 3 ≤ items.length
  · rw [if_pos hpie, barCount_createPieChart]
  · rw [if_neg hpie]
    rfl

theorem chartSection_pie_one (ct : String) (items : List RowItem) (r0 : Row)
    (k0 nf : String) (ks : List String) (x pw y : Rat)
    (hh : items.head? = Option.some (RowItem.dict r0))
    (hkeys : r0.map Prod.fst = k0 :: ks) (hk0 : k0 ≠ "")
    (hnf : numericField r0 = Option.some nf) (hnf0 : nf ≠ "")
    (hct : ct = "Auto" ∨ ct = "Pie" ∨ ct = "Both") (hlen : 3 ≤ items.length)
    (hsum : ((piePairs (items.take 8) k0 nf).map Prod.snd).sum ≠ 0) :
    pieCount (chartSection ct (Option.some items) x pw y).1 = 1 := by
  have hctn : ct ≠ "None" := by
    rcases hct with rfl | rfl | rfl <;> decide
  have hne : items ≠ [] := by
    rcases items with _ | ⟨it, rest⟩
    · cases hh
    · simp
  simp only [chartSection, hh, hnf]
  have htr : strOptTruthy (Option.some nf) = true := by simp [strOptTruthy, hnf0]
  simp only [hctn, hne, ne_eq, not_false_iff, and_self, ite_true, htr, Option.getD_some]
  rw [pieCount_append]
  have hpie : (ct = "Auto" ∨ ct = "Pie" ∨ ct = "Both") ∧ 3 ≤ items.length := ⟨hct, hlen⟩
  rw [if_pos hpie]
  have hh8 : (items.take 8).head? = Option.some (RowItem.dict r0) := by
    rcases items with _ | ⟨it, rest⟩
    · cases hh
    · simpa using hh
  have hsum8 : ((piePairs ((items.take 8).take 8) k0 nf).map Prod.snd).sum ≠ 0 := by
    rw [List.take_take]
    simpa using hsum
  rw [createPieChart_emits_one (items.take 8) r0 k0 nf ks x _ (pw - 2 * x) 200
    "Top Items Distribution" hh8 hkeys hk0 hnf0 hsum8]
  by_cases hbar : (ct = "Auto" ∨ ct = "Bar" ∨ ct = "Both") ∧ items.length ≤ 15
  · rw [if_pos hbar, pieCount_createBarChart]
  · rw [if_neg hbar]
    rfl

theorem writeVisualPdf_chart_counts (now : String) (r : Report) (qd : Option (List RowItem))
    (ct : String) (ops : List DrawOp) (h : writeVisualPdf now r qd ct = Option.some ops) :
    barCount ops = barCount (chartSection ct qd (2 * cm) pageWidth
      (summaryStep r.executive_summary (2 * cm) pageWidth
        (headerOps now r.title pageWidth pageHeight).2).2).1 ∧
    pieCount ops = pieCount (chartSection ct qd (2 * cm) pageWidth
      (summaryStep r.executive_summary (2 * cm) pageWidth
        (headerOps now r.title pageWidth pageHeight).2).2).1 ∧
    chartCount ops = chartCount (chartSection ct qd (2 * cm) pageWidth
      (summaryStep r.executive_summary (2 * cm) pageWidth
        (headerOps now r.title pageWidth pageHeight).2).2).1 := by
  simp only [writeVisualPdf] at h
  split at h
  · cases h
  · rename_i t heq
    simp only [Option.some.injEq] at h
    rw [← h]
    have hhdr := chartFree_headerOps now r.title pageWidth pageHeight
    have hs := chartFree_summaryStep r.executive_summary (2 * cm) pageWidth
      (headerOps now r.title pageWidth pageHeight).2
    have hm := chartFree_metricsStep r.key_metrics (2 * cm)
      (chartSection ct qd (2 * cm) pageWidth
        (summaryStep r.executive_summary (2 * cm) pageWidth
          (headerOps now r.title pageWidth pageHeight).2).2).2
    have ht := chartFree_tableStep _ _ _ _ _ heq
    have hi := chartFree_insightsStep r.insights (2 * cm) t.2
    have hf := chartFree_findingsStep r.findings (2 * cm)
      (insightsStep r.insights (2 * cm) t.2).2
    have hrc := chartFree_recsStep r.recommendations (2 * cm)
      (findingsStep r.findings (2 * cm) (insightsStep r.insights (2 * cm) t.2).2).2
    have hln := chartFree_limNextStep r.limitations r.next_steps (2 * cm) pageWidth
      (recsStep r.recommendations (2 * cm)
        (findingsStep r.findings (2 * cm) (insightsStep r.insights (2 * cm) t.2).2).2).2
    have hft := chartFree_footerOps r.dataset_used (2 * cm) pageWidth
    refine ⟨?_, ?_, ?_⟩
    · simp [barCount_append, barCount_eq_zero _ hhdr, barCount_eq_zero _ hs,
        barCount_eq_zero _ hm, barCount_eq_zero _ ht, barCount_eq_zero _ hi,
        barCount_eq_zero _ hf, barCount_eq_zero _ hrc, barCount_eq_zero _ hln,
        barCount_eq_zero _ hft]
    · simp [pieCount_append, pieCount_eq_zero _ hhdr, pieCount_eq_zero _ hs,
        pieCount_eq_zero _ hm, pieCount_eq_zero _ ht, pieCount_eq_zero _ hi,
        pieCount_eq_zero _ hf, pieCount_eq_zero _ hrc, pieCount_eq_zero _ hln,
        pieCount_eq_zero _ hft]
    · simp [chartCount_append, chartCount_eq_zero _ hhdr, chartCount_eq_zero _ hs,
        chartCount_eq_zero _ hm, chartCount_eq_zero _ ht, chartCount_eq_zero _ hi,
        chartCount_eq_zero _ hf, chartCount_eq_zero _ hrc, chartCount_eq_zero _ hln,
        chartCount_eq_zero _ hft]

/-- Claim C1 counterexample: the claim as frozen is false on the code at two
concrete inputs.  First, a three-row row-set whose numeric values sum to
zero satisfies every premise of the pie clause (policy Pie, at least three
rows, numeric field in row zero) yet the composer draws zero pie charts.
Second, a non-empty row-set whose first row has the empty string as its
first key and a numeric field b satisfies every premise of the bar clause
(policy Bar, at most 15 rows) yet zero bar charts are drawn. -/
theorem c1_chart_gating_counterexample :
    (3 ≤ wRowsZeroSum.length ∧
     wRowsZeroSum.head? = Option.some (RowItem.dict [("a", PyVal.pyint 0)]) ∧
     isNumericVal (PyVal.pyint 0) = true ∧
     pieCount (chartSection "Pie" (Option.some wRowsZeroSum) (2 * cm) pageWidth 700).1 = 0) ∧
    (wRowsEmptyKey ≠ [] ∧
     numericField [("", PyVal.pystr "x"), ("b", PyVal.pyint 5)] = Option.some "b" ∧
     wRowsEmptyKey.length ≤ 15 ∧
     barCount (chartSection "Bar" (Option.some wRowsEmptyKey) (2 * cm) pageWidth 700).1 = 0) := by
  decide

/-- Claim C1 (amended): in every render of the Document Composer with chart
policy None, zero charts are drawn regardless of the row-set shape.  For a
non-empty row-set of mappings whose first row has a nonempty first key and
a numeric-valued field under a nonempty key, exactly one bar chart is drawn
when the policy is Auto, Bar or Both and the row count is at most 15; and
exactly one pie chart is drawn over the top 8 rows when the policy is Auto,
Pie or Both, the row count is at least 3, and the coerced values of the top
8 rows do not sum to zero (the zero-sum and empty-key amendments are what
the counterexample forces). -/
theorem c1_chart_gating :
    (∀ (now : String) (r : Report) (qd : Option (List RowItem)) (ops : List DrawOp),
        writeVisualPdf now r qd "None" = Option.some ops → chartCount ops = 0) ∧
    (∀ (now : String) (r : Report) (ct : String) (items : List RowItem) (r0 : Row)
        (k0 nf : String) (ks : List String) (ops : List DrawOp),
        writeVisualPdf now r (Option.some items) ct = Option.some ops →
        items.head? = Option.some (RowItem.dict r0) →
        r0.map Prod.fst = k0 :: ks → k0 ≠ "" →
        numericField r0 = Option.some nf → nf ≠ "" →
        (ct = "Auto" ∨ ct = "Bar" ∨ ct = "Both") → items.length ≤ 15 →
        barCount ops = 1) ∧
    (∀ (now : String) (r : Report) (ct : String) (items : List RowItem) (r0 : Row)
        (k0 nf : String) (ks : List String) (ops : List DrawOp),
        writeVisualPdf now r (Option.some items) ct = Option.some ops →
        items.head? = Option.some (RowItem.dict r0) →
        r0.map Prod.fst = k0 :: ks → k0 ≠ "" →
        numericField r0 = Option.some nf → nf ≠ "" →
        (ct = "Auto" ∨ ct = "Pie" ∨ ct = "Both") → 3 ≤ items.length →
        ((piePairs (items.take 8) k0 nf).map Prod.snd).sum ≠ 0 →
        pieCount ops = 1) := by
  refine ⟨?_, ?_, ?_⟩
  · intro now r qd ops h
    rw [(writeVisualPdf_chart_counts now r qd "None" ops h).2.2, chartSection_none]
    rfl
  · intro now r ct items r0 k0 nf ks ops h hh hkeys hk0 hnf hnf0 hct hlen
    rw [(writeVisualPdf_chart_counts now r _ ct ops h).1]
    exact chartSection_bar_one ct items r0 k0 nf ks _ _ _ hh hkeys hk0 hnf hnf0 hct hlen
  · intro now r ct items r0 k0 nf ks ops h hh hkeys hk0 hnf hnf0 hct hlen hsum
    rw [(writeVisualPdf_chart_counts now r _ ct ops h).2.1]
    exact chartSection_pie_one ct items r0 k0 nf ks _ _ _ hh hkeys hk0 hnf hnf0 hct hlen hsum

/-- Claim C1 witness: the amended theorem applied to a concrete report and a
concrete three-row row-set, for each of the three policies. -/
theorem c1_chart_gating_witness :
    chartCount ((writeVisualPdf "d" wReport (Option.some wRows) "None").getD []) = 0 ∧
    barCount ((writeVisualPdf "d" wReport (Option.some wRows) "Bar").getD []) = 1 ∧
    pieCount ((writeVisualPdf "d" wReport (Option.some wRows) "Pie").getD []) = 1 :=
  ⟨c1_chart_gating.1 "d" wReport (Option.some wRows) _ (by decide),
   c1_chart_gating.2.1 "d" wReport "Bar" wRows [("k", PyVal.pystr "a"), ("v", PyVal.pyint 5)]
     "k" "v" ["v"] _ (by decide) (by decide) (by decide) (by decide) (by decide) (by decide)
     (Or.inr (Or.inl rfl)) (by decide),
   c1_chart_gating.2.2 "d" wReport "Pie" wRows [("k", PyVal.pystr "a"), ("v", PyVal.pyint 5)]
     "k" "v" ["v"] _ (by decide) (by decide) (by decide) (by decide) (by decide) (by decide)
     (Or.inr (Or.inl rfl)) (by decide) (by decide)⟩

theorem barPairs_values (items : List RowItem) (kf vf : String) :
    (barPairs items kf vf).map Prod.snd = (dictRows items).map (fun r => chartRowValue r vf) := by
  induction items with
  | nil => rfl
  | cons it rest ih => rcases it with r | v <;> simp [barPairs, dictRows, ih] <;>
      simpa [barPairs, dictRows] using ih

theorem piePairs_values (items : List RowItem) (kf vf : String) :
    (piePairs items kf vf).map Prod.snd = (dictRows items).map (fun r => chartRowValue r vf) := by
  induction items with
  | nil => rfl
  | cons it rest ih => rcases it with r | v <;> simp [piePairs, dictRows, ih] <;>
      simpa [piePairs, dictRows] using ih

/-- Claim C2: both chart renderers return the input cursor unchanged and
emit no drawing operation when the data is not a list, when it is empty, or
when neither an effective key field nor an effective value field is truthy
(covers the uninferable-field cases); the pie renderer additionally no-ops
whenever the values it prepared from the first eight rows sum to zero. -/
theorem c2_chart_degenerate_noop :
    ∀ (x y w h : Rat) (t : String) (kf vf : Option String),
      (∀ v, createBarChart (PyTab.notList v) x y w h t kf vf = ([], y) ∧
            createPieChart (PyTab.notList v) x y w h t kf vf = ([], y)) ∧
      (createBarChart (PyTab.list []) x y w h t kf vf = ([], y) ∧
       createPieChart (PyTab.list []) x y w h t kf vf = ([], y)) ∧
      (∀ items, strOptTruthy (effectiveKeyField items kf) = false →
          strOptTruthy (effectiveValueField items vf) = false →
          createBarChart (PyTab.list items) x y w h t kf vf = ([], y) ∧
          createPieChart (PyTab.list items) x y w h t kf vf = ([], y)) ∧
      (∀ items,
          ((piePairs (items.take 8) ((effectiveKeyField items kf).getD "")
              ((effectiveValueField items vf).getD "")).map Prod.snd).sum = 0 →
          createPieChart (PyTab.list items) x y w h t kf vf = ([], y)) := by
  intro x y w h t kf vf
  refine ⟨?_, ?_, ?_, ?_⟩
  · intro v
    exact ⟨rfl, rfl⟩
  · exact ⟨by simp [createBarChart], by simp [createPieChart]⟩
  · intro items h1 h2
    by_cases he : items = []
    · subst he
      exact ⟨by simp [createBarChart], by simp [createPieChart]⟩
    · constructor
      · simp only [createBarChart, he, ite_false, h1]
        simp
      · simp only [createPieChart, he, ite_false, h1]
        simp
  · intro items hsum
    by_cases he : items = []
    · subst he
      simp [createPieChart]
    · simp only [createPieChart, he, ite_false]
      by_cases hk : strOptTruthy (effectiveKeyField items kf) = true ∧
          strOptTruthy (effectiveValueField items vf) = true
      · simp only [hk, and_self, ite_true]
        rw [if_pos (Or.inr hsum)]
      · simp only [hk, ite_false]

/-- Claim C2 witness: the no-op theorem applied to a non-list argument and
to a concrete zero-sum row-set. -/
theorem c2_chart_degenerate_noop_witness :
    createBarChart (PyTab.notList (PyVal.pyint 3)) 1 2 3 4 "T" Option.none Option.none
      = ([], 2) ∧
    createPieChart (PyTab.list wRowsZeroSum) 1 2 3 4 "T" Option.none Option.none
      = ([], 2) :=
  ⟨((c2_chart_degenerate_noop 1 2 3 4 "T" Option.none Option.none).1 (PyVal.pyint 3)).1,
   (c2_chart_degenerate_noop 1 2 3 4 "T" Option.none Option.none).2.2.2 wRowsZeroSum
     (by decide)⟩

/-- Claim C3: a row value that the float conversion rejects contributes
exactly zero (the conversion is a total function in this model, so it never
raises), and the value lists prepared by both chart renderers are exactly
the per-row coercion mapped over the mapping rows. -/
theorem c3_nonnumeric_value_zero :
    (∀ (r : Row) (vf : String),
        pyFloat (rowGetD r vf (PyVal.pyint 0)) = Option.none → chartRowValue r vf = 0) ∧
    (∀ (items : List RowItem) (kf vf : String),
        (barPairs items kf vf).map Prod.snd
          = (dictRows items).map (fun r => chartRowValue r vf) ∧
        (piePairs items kf vf).map Prod.snd
          = (dictRows items).map (fun r => chartRowValue r vf)) := by
  constructor
  · intro r vf hnone
    simp [chartRowValue, hnone]
  · intro items kf vf
    exact ⟨barPairs_values items kf vf, piePairs_values items kf vf⟩

/-- Claim C3 witness: a concrete row whose value field holds a Python None,
which the float conversion rejects, contributes the value zero. -/
theorem c3_nonnumeric_value_zero_witness :
    pyFloat (rowGetD [("v", PyVal.pynone)] "v" (PyVal.pyint 0)) = Option.none ∧
    chartRowValue [("v", PyVal.pynone)] "v" = 0 :=
  ⟨by decide, c3_nonnumeric_value_zero.1 [("v", PyVal.pynone)] "v" (by decide)⟩

theorem digitCharOf_isDigit : ∀ k, k < 10 → (digitCharOf k).isDigit = true := by decide

/-- Claim C6: the table cell formatter turns the float 1234.5 into 1,234.50
and the int 1234 into 1,234; every float is rendered with exactly two digit
characters after the decimal point; every non-numeric value is rendered
through str unchanged; and the cells of a mapping row are exactly this
formatter applied to the looked-up column values. -/
theorem c6_table_cell_formatting :
    tableCellString (PyVal.pyfloat (2469 / 2)) = "1,234.50" ∧
    tableCellString (PyVal.pyint 1234) = "1,234" ∧
    (∀ q : Rat, ∃ (a : String) (c1 c2 : Char),
        tableCellString (PyVal.pyfloat q) = a ++ "." ++ String.mk [c1, c2] ∧
        c1.isDigit = true ∧ c2.isDigit = true) ∧
    (∀ v : PyVal, isNumericVal v = false → tableCellString v = pyStr v) ∧
    (∀ (cols : List String) (r : Row),
        rowCellsOf cols (RowItem.dict r)
          = Option.some (cols.map fun c => tableCellString (rowGetD r c (PyVal.pystr "")))) := by
  refine ⟨by decide, by decide, ?_, ?_, ?_⟩
  · intro q
    refine ⟨(if roundHalfEven (q * 100) < 0 then "-" else "")
        ++ String.mk (groupedDigits ((roundHalfEven (q * 100)).natAbs / 100)),
      digitCharOf ((roundHalfEven (q * 100)).natAbs / 10 % 10),
      digitCharOf ((roundHalfEven (q * 100)).natAbs % 10), ?_, ?_, ?_⟩
    · simp only [tableCellString, pyFormatCommaFixed2]
    · exact digitCharOf_isDigit _ (Nat.mod_lt _ (by norm_num))
    · exact digitCharOf_isDigit _ (Nat.mod_lt _ (by norm_num))
  · intro v hv
    rcases v with _ | b | n | q | s
    · rfl
    · simp [isNumericVal] at hv
    · simp [isNumericVal] at hv
    · simp [isNumericVal] at hv
    · rfl
  · intro cols r
    rfl

/-- Claim C6 witness: the formatting theorem applied to a concrete
non-numeric value and the two frozen numeric examples. -/
theorem c6_table_cell_formatting_witness :
    isNumericVal (PyVal.pystr "x") = false ∧
    tableCellString (PyVal.pystr "x") = pyStr (PyVal.pystr "x") ∧
    tableCellString (PyVal.pyfloat (2469 / 2)) = "1,234.50" :=
  ⟨by decide, c6_table_cell_formatting.2.2.2.1 (PyVal.pystr "x") (by decide),
   c6_table_cell_formatting.1⟩

theorem textsAt_append (x0 : Rat) (a b : List DrawOp) :
    textsAt x0 (a ++ b) = textsAt x0 a ++ textsAt x0 b := List.filterMap_append a b _

theorem textsAt_colContLines (t x1 : Rat) (h : ¬ x1 = t) (ls : List String) (ty : Rat) :
    textsAt t (colContLines x1 ls ty).1 = [] := by
  induction ls generalizing ty with
  | nil => rfl
  | cons l rest ih =>
    simp only [colContLines]
    simp [textsAt, List.filterMap_cons, h] at ih ⊢
    exact ih _

theorem textsAt_colItemOps (t x0 x1 : Rat) (h0 : ¬ x0 = t) (h1 : ¬ x1 = t)
    (mark : String) (its : List String) (ty : Rat) :
    textsAt t (colItemOps x0 x1 mark its ty).1 = [] := by
  induction its generalizing ty with
  | nil => rfl
  | cons it rest ih =>
    simp only [colItemOps]
    rcases hw : pyWrap it 40 with _ | ⟨w0, ws⟩
    · exact ih ty
    · have hc := textsAt_colContLines t x1 h1 ws (ty - 12)
      simp [textsAt, List.filterMap_cons, List.filterMap_append, h0] at hc ih ⊢
      exact ⟨hc, ih _⟩

/-- Claim C8: every section of the composer whose collection is empty (and
the executive summary when it is the empty string) contributes no drawing
operation and leaves the cursor exactly as if the section renderer had not
been invoked; for the shared two-column block, an empty limitations list
yields no text at the limitations column position and an empty next-steps
list yields no text at the next-steps column position, and the block is a
complete no-op when both are empty. -/
theorem c8_empty_sections_frame :
    ∀ (x pw y : Rat),
      summaryStep "" x pw y = ([], y) ∧
      metricsStep [] x y = ([], y) ∧
      insightsStep [] x y = ([], y) ∧
      findingsStep [] x y = ([], y) ∧
      recsStep [] x y = ([], y) ∧
      limNextStep [] [] x pw y = ([], y) ∧
      (∀ ns, textsAt (2 * cm) (limNextStep [] ns (2 * cm) pageWidth y).1 = []) ∧
      (∀ lims, textsAt (2 * cm + ((pageWidth - 2 * (2 * cm)) / 2 - 20) + 40)
          (limNextStep lims [] (2 * cm) pageWidth y).1 = []) := by
  intro x pw y
  refine ⟨rfl, rfl, rfl, rfl, rfl, by simp [limNextStep], ?_, ?_⟩
  · intro ns
    by_cases hn : ns = []
    · simp [limNextStep, hn]
      rfl
    · have hg : ¬([] = ([] : List String) ∧ ns = []) := by simp [hn]
      simp only [limNextStep, hg, ite_false]
      have hne1 : ¬(2 * cm + ((pageWidth - 2 * (2 * cm)) / 2 - 20) + 40 = 2 * cm) := by
        decide
      have hne2 : ¬(2 * cm + ((pageWidth - 2 * (2 * cm)) / 2 - 20) + 45 = 2 * cm) := by
        decide
      have hne3 : ¬(2 * cm + ((pageWidth - 2 * (2 * cm)) / 2 - 20) + 52 = 2 * cm) := by
        decide
      have hco := textsAt_colItemOps (2 * cm)
        (2 * cm + ((pageWidth - 2 * (2 * cm)) / 2 - 20) + 45)
        (2 * cm + ((pageWidth - 2 * (2 * cm)) / 2 - 20) + 52) hne2 hne3 "→ " (ns.take 5)
      by_cases hy : y < 10 * cm <;>
        simp only [hy, ite_true, ite_false, hn, ne_eq, not_false_iff] <;>
        simp [textsAt_append, textsAt, List.filterMap_cons, hne1] <;>
        simpa [textsAt] using hco _
  · intro lims
    by_cases hl : lims = []
    · simp [limNextStep, hl]
      rfl
    · have hg : ¬(lims = [] ∧ ([] : List String) = []) := by simp [hl]
      simp only [limNextStep, hg, ite_false]
      have hne1 : ¬(2 * cm = 2 * cm + ((pageWidth - 2 * (2 * cm)) / 2 - 20) + 40) := by
        decide
      have hne2 : ¬(2 * cm + 5 = 2 * cm + ((pageWidth - 2 * (2 * cm)) / 2 - 20) + 40) := by
        decide
      have hne3 : ¬(2 * cm + 12 = 2 * cm + ((pageWidth - 2 * (2 * cm)) / 2 - 20) + 40) := by
        decide
      have hco := textsAt_colItemOps (2 * cm + ((pageWidth - 2 * (2 * cm)) / 2 - 20) + 40)
        (2 * cm + 5) (2 * cm + 12) hne2 hne3 "• " (lims.take 5)
      by_cases hy : y < 10 * cm <;>
        simp only [hy, ite_true, ite_false, hl, ne_eq, not_false_iff] <;>
        simp [textsAt_append, textsAt, List.filterMap_cons, hne1] <;>
        simpa [textsAt] using hco _

theorem headerOps_snd (now t : String) (pw ph : Rat) :
    (headerOps now t pw ph).2 = ph - 3 * cm - cm / 2 := rfl

theorem headerOps_fst (now t : String) (pw ph : Rat) :
    (headerOps now t pw ph).1 =
      [DrawOp.setFillColor "#2C3E50",
       DrawOp.rect 0 (ph - 3 * cm) pw (3 * cm) true false,
       DrawOp.setFillColor "#34495E",
       DrawOp.rect 0 (ph - 3 * cm + 3 * cm / 10) pw (3 * cm - 3 * cm / 10) true false,
       DrawOp.setFillColor "#3D5A6C",
       DrawOp.rect 0 (ph - 3 * cm + 6 * cm / 10) pw (3 * cm - 6 * cm / 10) true false,
       DrawOp.setFillColor "white",
       DrawOp.setFont "Helvetica-Bold" 22,
       DrawOp.drawString (2 * cm) (ph - 9 * cm / 5) t,
       DrawOp.setFont "Helvetica" 10]
      ++ DrawOp.drawString (2 * cm) (ph - 23 * cm / 10) ("Generated: " ++ now)
      :: [DrawOp.setStrokeColor "#3498DB",
          DrawOp.setLineWidth 2,
          DrawOp.line 0 (ph - 3 * cm) pw (ph - 3 * cm)] := rfl

/-- Claim C9: for a fixed report, row-set and chart policy, two renders that
differ only in the generation-date string either both fail identically or
produce operation sequences that differ in exactly one operation, the
timestamp line of the header; every other operation, every coordinate, and
the cursor flow are identical. -/
theorem c9_determinism_modulo_timestamp :
    ∀ (r : Report) (qd : Option (List RowItem)) (ct : String) (n1 n2 : String),
      (writeVisualPdf n1 r qd ct = Option.none ∧ writeVisualPdf n2 r qd ct = Option.none) ∨
      ∃ pre post,
        writeVisualPdf n1 r qd ct
          = Option.some (pre ++ DrawOp.drawString (2 * cm) (pageHeight - 23 * cm / 10)
              ("Generated: " ++ n1) :: post) ∧
        writeVisualPdf n2 r qd ct
          = Option.some (pre ++ DrawOp.drawString (2 * cm) (pageHeight - 23 * cm / 10)
              ("Generated: " ++ n2) :: post) := by
  intro r qd ct n1 n2
  simp only [writeVisualPdf, headerOps_snd]
  rcases hT : tableStep qd (2 * cm) pageWidth (metricsStep r.key_metrics (2 * cm)
      (chartSection ct qd (2 * cm) pageWidth (summaryStep r.executive_summary (2 * cm)
        pageWidth (pageHeight - 3 * cm - cm / 2)).2).2).2 with _ | t
  · left
    exact ⟨rfl, rfl⟩
  · right
    refine ⟨[DrawOp.setFillColor "#2C3E50",
        DrawOp.rect 0 (pageHeight - 3 * cm) pageWidth (3 * cm) true false,
        DrawOp.setFillColor "#34495E",
        DrawOp.rect 0 (pageHeight - 3 * cm + 3 * cm / 10) pageWidth
          (3 * cm - 3 * cm / 10) true false,
        DrawOp.setFillColor "#3D5A6C",
        DrawOp.rect 0 (pageHeight - 3 * cm + 6 * cm / 10) pageWidth
          (3 * cm - 6 * cm / 10) true false,
        DrawOp.setFillColor "white",
        DrawOp.setFont "Helvetica-Bold" 22,
        DrawOp.drawString (2 * cm) (pageHeight - 9 * cm / 5) r.title,
        DrawOp.setFont "Helvetica" 10],
      [DrawOp.setStrokeColor "#3498DB",
       DrawOp.setLineWidth 2,
       DrawOp.line 0 (pageHeight - 3 * cm) pageWidth (pageHeight - 3 * cm)]
      ++ (summaryStep r.executive_summary (2 * cm) pageWidth
            (pageHeight - 3 * cm - cm / 2)).1
      ++ (chartSection ct qd (2 * cm) pageWidth (summaryStep r.executive_summary (2 * cm)
            pageWidth (pageHeight - 3 * cm - cm / 2)).2).1
      ++ (metricsStep r.key_metrics (2 * cm)
            (chartSection ct qd (2 * cm) pageWidth (summaryStep r.executive_summary (2 * cm)
              pageWidth (pageHeight - 3 * cm - cm / 2)).2).2).1
      ++ t.1
      ++ (insightsStep r.insights (2 * cm) t.2).1
      ++ (findingsStep r.findings (2 * cm) (insightsStep r.insights (2 * cm) t.2).2).1
      ++ (recsStep r.recommendations (2 * cm)
            (findingsStep r.findings (2 * cm) (insightsStep r.insights (2 * cm) t.2).2).2).1
      ++ (limNextStep r.limitations r.next_steps (2 * cm) pageWidth
            (recsStep r.recommendations (2 * cm)
              (findingsStep r.findings (2 * cm)
                (insightsStep r.insights (2 * cm) t.2).2).2).2).1
      ++ footerOps r.dataset_used (2 * cm) pageWidth, ?_, ?_⟩ <;>
      simp [headerOps_fst, List.append_assoc]

/-- Claim C10: in the structured summary of a successful build, has_charts
is true exactly when the extracted query data is present and non-empty; it
does not depend on the chart policy, so it is true even for a render with
policy None (which draws zero charts) and even when row zero holds no
numeric field (which also draws zero charts). -/
theorem c10_has_charts_presence_only :
    ∀ (r : Report) (qd : Option (List RowItem)) (p f fo : String),
      ((buildPdfInfo r qd p f fo).has_charts = true ↔
        ∃ l, qd = Option.some l ∧ l ≠ []) ∧
      (∀ (now : String) (items : List RowItem) (ops : List DrawOp),
          qd = Option.some items → items ≠ [] →
          writeVisualPdf now r qd "None" = Option.some ops →
          (buildPdfInfo r qd p f fo).has_charts = true ∧ chartCount ops = 0) ∧
      (∀ (now ct : String) (items : List RowItem) (r0 : Row) (ops : List DrawOp),
          qd = Option.some items → items.head? = Option.some (RowItem.dict r0) →
          numericField r0 = Option.none →
          writeVisualPdf now r qd ct = Option.some ops →
          (buildPdfInfo r qd p f fo).has_charts = true ∧ chartCount ops = 0) := by
  intro r qd p f fo
  refine ⟨?_, ?_, ?_⟩
  · rcases qd with _ | ⟨l⟩
    · simp [buildPdfInfo]
    · simp [buildPdfInfo, List.length_pos]
  · intro now items ops hqd hne hrun
    subst hqd
    constructor
    · simp [buildPdfInfo, List.length_pos, hne]
    · rw [(writeVisualPdf_chart_counts now r _ "None" ops hrun).2.2, chartSection_none]
      rfl
  · intro now ct items r0 ops hqd hh hnum hrun
    subst hqd
    have hne : items ≠ [] := by
      rcases items with _ | ⟨it, rest⟩
      · cases hh
      · simp
    constructor
    · simp [buildPdfInfo, List.length_pos, hne]
    · rw [(writeVisualPdf_chart_counts now r _ ct ops hrun).2.2,
        chartSection_no_numeric ct items r0 _ _ _ hh (by rw [hnum]; rfl)]
      rfl

/-- Claim C10 witness: the theorem applied to a concrete report with a
non-empty row-set under policy None, and to a row-set without a numeric
field in row zero under policy Auto. -/
theorem c10_has_charts_presence_only_witness :
    (buildPdfInfo wReport (Option.some wRows) "p" "f" ".").has_charts = true ∧
    chartCount ((writeVisualPdf "d" wReport (Option.some wRows) "None").getD []) = 0 ∧
    (buildPdfInfo wReport (Option.some wRowsNoNum) "p" "f" ".").has_charts = true ∧
    chartCount ((writeVisualPdf "d" wReport (Option.some wRowsNoNum) "Auto").getD []) = 0 := by
  refine ⟨?_, ?_, ?_, ?_⟩
  · exact ((c10_has_charts_presence_only wReport (Option.some wRows) "p" "f" ".").2.1 "d"
      wRows ((writeVisualPdf "d" wReport (Option.some wRows) "None").getD []) rfl
      (by decide) (by decide)).1
  · exact ((c10_has_charts_presence_only wReport (Option.some wRows) "p" "f" ".").2.1 "d"
      wRows ((writeVisualPdf "d" wReport (Option.some wRows) "None").getD []) rfl
      (by decide) (by decide)).2
  · exact ((c10_has_charts_presence_only wReport (Option.some wRowsNoNum) "p" "f" ".").2.2 "d"
      "Auto" wRowsNoNum [("k", PyVal.pystr "a")]
      ((writeVisualPdf "d" wReport (Option.some wRowsNoNum) "Auto").getD []) rfl
      (by decide) (by decide) (by decide)).1
  · exact ((c10_has_charts_presence_only wReport (Option.some wRowsNoNum) "p" "f" ".").2.2 "d"
      "Auto" wRowsNoNum [("k", PyVal.pystr "a")]
      ((writeVisualPdf "d" wReport (Option.some wRowsNoNum) "Auto").getD []) rfl
      (by decide) (by decide) (by decide)).2

theorem spFree_nil : SPFree [] := by
  intro a ha
  cases ha

theorem spFree_cons {op : DrawOp} {l : List DrawOp} :
    SPFree (op :: l) ↔ op ≠ DrawOp.showPage ∧ SPFree l := by
  constructor
  · intro h
    exact ⟨h op (List.mem_cons_self op l), fun a ha => h a (List.mem_cons_of_mem op ha)⟩
  · rintro ⟨h1, h2⟩ a ha
    rcases List.mem_cons.mp ha with rfl | ha
    · exact h1
    · exact h2 a ha

theorem spFree_append_iff {a b : List DrawOp} :
    SPFree (a ++ b) ↔ SPFree a ∧ SPFree b := by
  constructor
  · intro h
    exact ⟨fun op hop => h op (List.mem_append.mpr (Or.inl hop)),
           fun op hop => h op (List.mem_append.mpr (Or.inr hop))⟩
  · rintro ⟨h1, h2⟩ op hop
    rcases List.mem_append.mp hop with h | h
    · exact h1 op h
    · exact h2 op h

theorem spFree_not_mem {l : List DrawOp} (h : SPFree l) : DrawOp.showPage ∉ l :=
  fun hm => h _ hm rfl

theorem spFree_metricCardOps (m : Row) (cx cy : Rat) : SPFree (metricCardOps m cx cy) := by
  rcases m with _ | ⟨⟨k, v⟩, rest⟩
  · simp [metricCardOps, spFree_cons, spFree_nil]
  · rcases rest with _ | ⟨⟨k2, v2⟩, rest2⟩ <;>
      simp [metricCardOps, spFree_cons, spFree_append_iff, spFree_nil]

theorem spFree_lineOpsAt (tx dy : Rat) (ls : List String) (y : Rat) :
    SPFree (lineOpsAt tx dy ls y).1 := by
  induction ls generalizing y with
  | nil => exact spFree_nil
  | cons l rest ih =>
    simp only [lineOpsAt]
    rw [spFree_cons]
    exact ⟨by simp, ih (y - 14)⟩

theorem metricLoop_startY (x : Rat) (ps : List (Nat × Row)) (s : Rat) :
    (DrawOp.showPage ∉ (metricLoop x ps s).1 ∧ (metricLoop x ps s).2 = s) ∨
    (DrawOp.showPage ∈ (metricLoop x ps s).1 ∧ (metricLoop x ps s).2 = 27 * cm) := by
  induction ps generalizing s with
  | nil =>
    left
    exact ⟨by simp [metricLoop], rfl⟩
  | cons p rest ih =>
    rcases p with ⟨i, m⟩
    simp only [metricLoop]
    by_cases hb : s - ((i / 2 : Nat) : Rat) * (2 * cm + cm / 2) - 2 * cm < 3 * cm
    · rw [if_pos hb]
      right
      refine ⟨List.mem_cons_self _ _, ?_⟩
      rcases ih (27 * cm) with ⟨_, h2⟩ | ⟨_, h2⟩ <;> simpa using h2
    · rw [if_neg hb]
      rcases ih s with ⟨h1, h2⟩ | ⟨h1, h2⟩
      · left
        refine ⟨?_, by simpa using h2⟩
        simp only [List.mem_append]
        rintro (hm | hm)
        · exact spFree_not_mem (spFree_metricCardOps m _ _) hm
        · exact h1 hm
      · right
        refine ⟨?_, by simpa using h2⟩
        simp only [List.mem_append]
        exact Or.inr h1

/-- Claim C5: for every non-empty metrics sequence, the card renderer lays
out two cards per row capped at ten and returns a final cursor equal to the
current row origin (the cursor below the title when no page break occurred,
the reset top of page 27 cm when one did) minus the true number of rows,
the ceiling of half of min(n, 10), times the card pitch, minus the fixed
gap of 20 — regardless of page breaks taken mid-sequence. -/
theorem c5_metric_cards_final_cursor :
    ∀ (ms : List Row) (x y : Rat), ms ≠ [] →
      ∃ S, ((S = 27 * cm ∧ DrawOp.showPage ∈ (drawMetricCards ms x y).1) ∨
            (S = y - 25 ∧ DrawOp.showPage ∉ (drawMetricCards ms x y).1)) ∧
        (drawMetricCards ms x y).2
          = S - (((min ms.length 10 + 1) / 2 : Nat) : Rat) * (2 * cm + cm / 2) - 20 := by
  intro ms x y hne
  simp only [drawMetricCards, hne, ite_false]
  rcases metricLoop_startY x ((ms.take 10).enum) (y - 25) with ⟨h1, h2⟩ | ⟨h1, h2⟩
  · refine ⟨y - 25, Or.inr ⟨rfl, ?_⟩, by rw [h2]⟩
    simp only [List.mem_append, List.mem_cons]
    rintro ((h | h | h | h | h) | h) <;> first | cases h | exact h1 h
  · refine ⟨27 * cm, Or.inl ⟨rfl, ?_⟩, by rw [h2]⟩
    simp only [List.mem_append]
    exact Or.inr h1

/-- Claim C5 witness: the cursor theorem applied to a single concrete
metric at a concrete cursor. -/
theorem c5_metric_cards_final_cursor_witness :
    ([[("a", PyVal.pyint 1)]] : List Row) ≠ [] ∧
    (∃ S, ((S = 27 * cm ∧
            DrawOp.showPage ∈ (drawMetricCards [[("a", PyVal.pyint 1)]] 10 700).1) ∨
           (S = 700 - 25 ∧
            DrawOp.showPage ∉ (drawMetricCards [[("a", PyVal.pyint 1)]] 10 700).1)) ∧
      (drawMetricCards [[("a", PyVal.pyint 1)]] 10 700).2
        = S - (((min ([[("a", PyVal.pyint 1)]] : List Row).length 10 + 1) / 2 : Nat) : Rat)
            * (2 * cm + cm / 2) - 20) :=
  ⟨by decide, c5_metric_cards_final_cursor [[("a", PyVal.pyint 1)]] 10 700 (by decide)⟩

theorem contAfter_nil (cb : List DrawOp) : contAfter cb [] := trivial

theorem contAfter_noSP {cb a b : List DrawOp} (ha : SPFree a) (hb : contAfter cb b) :
    contAfter cb (a ++ b) := by
  induction a with
  | nil => simpa using hb
  | cons op rest ih =>
    rw [spFree_cons] at ha
    exact ⟨fun h => absurd h ha.1, ih ha.2⟩

theorem contAfter_spBlock {cb b : List DrawOp} (hcb : SPFree cb) (hb : contAfter cb b) :
    contAfter cb (DrawOp.showPage :: (cb ++ b)) :=
  ⟨fun _ => List.take_left cb b, contAfter_noSP hcb hb⟩

theorem textsAt_nil (t : Rat) : textsAt t [] = [] := rfl

theorem textsAt_cons_ds (t sx sy : Rat) (s : String) (l : List DrawOp) :
    textsAt t (DrawOp.drawString sx sy s :: l)
      = if sx = t then s :: textsAt t l else textsAt t l := by
  by_cases hc : sx = t <;> simp [textsAt, List.filterMap_cons, hc]

theorem textsAt_cons_nonds (t : Rat) (op : DrawOp) (l : List DrawOp)
    (h : isDS op = false) : textsAt t (op :: l) = textsAt t l := by
  rcases op <;> simp [textsAt, List.filterMap_cons] <;> cases h

theorem textsAt_lineOpsAt_self (tx dy : Rat) (ls : List String) (y : Rat) :
    textsAt tx (lineOpsAt tx dy ls y).1 = ls := by
  induction ls generalizing y with
  | nil => rfl
  | cons l rest ih =>
    simp only [lineOpsAt]
    rw [textsAt_cons_ds, if_pos rfl, ih]

theorem textsAt_lineOpsAt_ne (t tx dy : Rat) (h : ¬ tx = t) (ls : List String) (y : Rat) :
    textsAt t (lineOpsAt tx dy ls y).1 = [] := by
  induction ls generalizing y with
  | nil => rfl
  | cons l rest ih =>
    simp only [lineOpsAt]
    rw [textsAt_cons_ds, if_neg h, ih]

theorem spFree_contBlock (c : String) (x : Rat) (t : String) : SPFree (contBlock c x t) := by
  simp [contBlock, spFree_cons, spFree_nil]

theorem contAfter_insightsLoop (x : Rat) (ps : List (Nat × Insight)) (y : Rat)
    (tail : List DrawOp)
    (htail : contAfter (contBlock "#2C3E50" x "Key Insights (continued)") tail) :
    contAfter (contBlock "#2C3E50" x "Key Insights (continued)")
      ((insightsLoop x ps y).1 ++ tail) := by
  induction ps generalizing y with
  | nil => simpa using htail
  | cons p rest ih =>
    rcases p with ⟨i, ins⟩
    simp only [insightsLoop]
    by_cases hb : y < 5 * cm <;> simp only [hb, ite_true, ite_false] <;>
      simp only [List.append_assoc, List.nil_append]
    · refine contAfter_spBlock (spFree_contBlock _ _ _)
        (contAfter_noSP ?_ (contAfter_noSP (spFree_lineOpsAt _ _ _ _) (ih _)))
      simp [spFree_cons, spFree_nil]
    · refine contAfter_noSP ?_ (contAfter_noSP (spFree_lineOpsAt _ _ _ _) (ih _))
      simp [spFree_cons, spFree_nil]

theorem contAfter_findingsLoop (x : Rat) (fs : List String) (y : Rat) (tail : List DrawOp)
    (htail : contAfter (contBlock "#2C3E50" x "Detailed Findings (continued)") tail) :
    contAfter (contBlock "#2C3E50" x "Detailed Findings (continued)")
      ((findingsLoop x fs y).1 ++ tail) := by
  induction fs generalizing y with
  | nil => simpa using htail
  | cons f rest ih =>
    simp only [findingsLoop]
    by_cases hb : y < 4 * cm <;> simp only [hb, ite_true, ite_false] <;>
      simp only [List.append_assoc, List.nil_append]
    · refine contAfter_spBlock (spFree_contBlock _ _ _)
        (contAfter_noSP ?_ (contAfter_noSP (spFree_lineOpsAt _ _ _ _) (ih _)))
      simp [spFree_cons, spFree_nil]
    · refine contAfter_noSP ?_ (contAfter_noSP (spFree_lineOpsAt _ _ _ _) (ih _))
      simp [spFree_cons, spFree_nil]

theorem contAfter_recsLoop (x : Rat) (rcs : List String) (y : Rat) (tail : List DrawOp)
    (htail : contAfter (contBlock "#27AE60" x "Recommendations (continued)") tail) :
    contAfter (contBlock "#27AE60" x "Recommendations (continued)")
      ((recsLoop x rcs y).1 ++ tail) := by
  induction rcs generalizing y with
  | nil => simpa using htail
  | cons rc rest ih =>
    simp only [recsLoop]
    by_cases hb : y < 4 * cm <;> simp only [hb, ite_true, ite_false] <;>
      simp only [List.append_assoc, List.nil_append]
    · refine contAfter_spBlock (spFree_contBlock _ _ _)
        (contAfter_noSP ?_ (contAfter_noSP (spFree_lineOpsAt _ _ _ _) (ih _)))
      simp [spFree_cons, spFree_nil]
    · refine contAfter_noSP ?_ (contAfter_noSP (spFree_lineOpsAt _ _ _ _) (ih _))
      simp [spFree_cons, spFree_nil]

theorem insightsLoop_texts (x : Rat) (ps : List (Nat × Insight)) (y : Rat) :
    textsAt (x + 25) (insightsLoop x ps y).1
      = (ps.map (fun p => pyWrap (insightText p.2) 90)).join := by
  have hx : ¬ x = x + 25 := by intro h; linarith
  have hx7 : ¬ x + 7 = x + 25 := by intro h; linarith
  induction ps generalizing y with
  | nil => rfl
  | cons p rest ih =>
    rcases p with ⟨i, ins⟩
    simp only [insightsLoop]
    by_cases hb : y < 5 * cm <;> simp only [hb, ite_true, ite_false] <;>
      simp [textsAt_append, textsAt_nil, textsAt_cons_ds, textsAt_cons_nonds, isDS,
        contBlock, hx, hx7, textsAt_lineOpsAt_self, ih]

theorem insightsLoop_badges (x : Rat) (ps : List (Nat × Insight)) (y : Rat) :
    textsAt (x + 7) (insightsLoop x ps y).1 = ps.map (fun p => toString p.1) := by
  have hx : ¬ x = x + 7 := by intro h; linarith
  have hx25 : ¬ x + 25 = x + 7 := by intro h; linarith
  induction ps generalizing y with
  | nil => rfl
  | cons p rest ih =>
    rcases p with ⟨i, ins⟩
    simp only [insightsLoop]
    by_cases hb : y < 5 * cm <;> simp only [hb, ite_true, ite_false] <;>
      simp [textsAt_append, textsAt_nil, textsAt_cons_ds, textsAt_cons_nonds, isDS,
        contBlock, hx, textsAt_lineOpsAt_ne (x + 7) (x + 25) 8 hx25, ih]

theorem findingsLoop_texts (x : Rat) (fs : List String) (y : Rat) :
    textsAt (x + 15) (findingsLoop x fs y).1 = (fs.map (fun f => pyWrap f 85)).join := by
  have hx : ¬ x = x + 15 := by intro h; linarith
  induction fs generalizing y with
  | nil => rfl
  | cons f rest ih =>
    simp only [findingsLoop]
    by_cases hb : y < 4 * cm <;> simp only [hb, ite_true, ite_false] <;>
      simp [textsAt_append, textsAt_nil, textsAt_cons_ds, textsAt_cons_nonds, isDS,
        contBlock, hx, textsAt_lineOpsAt_self, ih]

theorem recsLoop_texts (x : Rat) (rcs : List String) (y : Rat) :
    textsAt (x + 20) (recsLoop x rcs y).1 = (rcs.map (fun rc => pyWrap rc 85)).join := by
  have hx : ¬ x = x + 20 := by intro h; linarith
  induction rcs generalizing y with
  | nil => rfl
  | cons rc rest ih =>
    simp only [recsLoop]
    by_cases hb : y < 4 * cm <;> simp only [hb, ite_true, ite_false] <;>
      simp [textsAt_append, textsAt_nil, textsAt_cons_ds, textsAt_cons_nonds, isDS,
        contBlock, hx, textsAt_lineOpsAt_self, ih]

theorem circleCount_lineOpsAt (r0 tx dy : Rat) (ls : List String) (y : Rat) :
    circleCount r0 (lineOpsAt tx dy ls y).1 = 0 := by
  induction ls generalizing y with
  | nil => rfl
  | cons l rest ih =>
    simp only [lineOpsAt]
    simp [circleCount, List.countP_cons] at ih ⊢
    exact ih _

theorem segCount_lineOpsAt (tx dy : Rat) (ls : List String) (y : Rat) :
    segCount (lineOpsAt tx dy ls y).1 = 0 := by
  induction ls generalizing y with
  | nil => rfl
  | cons l rest ih =>
    simp only [lineOpsAt]
    simp [segCount, List.countP_cons] at ih ⊢
    exact ih _

theorem circleCount_append (r0 : Rat) (a b : List DrawOp) :
    circleCount r0 (a ++ b) = circleCount r0 a + circleCount r0 b := List.countP_append _ _ _

theorem segCount_append (a b : List DrawOp) :
    segCount (a ++ b) = segCount a + segCount b := List.countP_append _ _ _

theorem findingsLoop_bullets (x : Rat) (fs : List String) (y : Rat) :
    circleCount 2 (findingsLoop x fs y).1 = fs.length := by
  induction fs generalizing y with
  | nil => rfl
  | cons f rest ih =>
    simp only [findingsLoop]
    by_cases hb : y < 4 * cm <;> simp only [hb, ite_true, ite_false] <;>
      rw [circleCount_append, circleCount_append, circleCount_append,
        circleCount_lineOpsAt, ih] <;>
      simp [circleCount, contBlock, List.countP_cons] <;> omega

theorem recsLoop_checks (x : Rat) (rcs : List String) (y : Rat) :
    segCount (recsLoop x rcs y).1 = 2 * rcs.length := by
  induction rcs generalizing y with
  | nil => rfl
  | cons rc rest ih =>
    simp only [recsLoop]
    by_cases hb : y < 4 * cm <;> simp only [hb, ite_true, ite_false] <;>
      rw [segCount_append, segCount_append, segCount_append,
        segCount_lineOpsAt, ih] <;>
      simp [segCount, contBlock, List.countP_cons] <;> omega

theorem enumFrom_map_snd_comp {α β : Type} (g : α → β) :
    ∀ (n : Nat) (l : List α), (List.enumFrom n l).map (fun p => g p.2) = l.map g := by
  intro n l
  induction l generalizing n with
  | nil => rfl
  | cons a rest ih => simp [List.enumFrom, ih]

/-- Claim C7: in the insights renderer and in the findings and
recommendations loops of the composer, every page break emitted inside the
item loop is immediately followed by the redrawn section title carrying the
continued suffix; the item texts drawn at the item text position are
exactly the wrapped texts of the first cap-many items in order, with no
item dropped or duplicated across a break (insights additionally number
their badges 1, 2, ... in order, findings draw exactly one bullet dot per
rendered item, and recommendations exactly one two-stroke checkmark per
rendered item). -/
theorem c7_midlist_break_invariant :
    (∀ (ins : List Insight) (x y : Rat),
        contAfter (contBlock "#2C3E50" x "Key Insights (continued)")
          (drawInsightsSection ins x y).1 ∧
        textsAt (x + 25) (drawInsightsSection ins x y).1
          = ((ins.take 8).map (fun i => pyWrap (insightText i) 90)).join ∧
        textsAt (x + 7) (drawInsightsSection ins x y).1
          = (List.enumFrom 1 (ins.take 8)).map (fun p => toString p.1)) ∧
    (∀ (fs : List String) (x y : Rat),
        contAfter (contBlock "#2C3E50" x "Detailed Findings (continued)")
          (findingsLoop x (fs.take 10) y).1 ∧
        textsAt (x + 15) (findingsLoop x (fs.take 10) y).1
          = ((fs.take 10).map (fun f => pyWrap f 85)).join ∧
        circleCount 2 (findingsLoop x (fs.take 10) y).1 = min fs.length 10) ∧
    (∀ (rcs : List String) (x y : Rat),
        contAfter (contBlock "#27AE60" x "Recommendations (continued)")
          (recsLoop x (rcs.take 8) y).1 ∧
        textsAt (x + 20) (recsLoop x (rcs.take 8) y).1
          = ((rcs.take 8).map (fun rc => pyWrap rc 85)).join ∧
        segCount (recsLoop x (rcs.take 8) y).1 = 2 * min rcs.length 8) := by
  refine ⟨?_, ?_, ?_⟩
  · intro ins x y
    by_cases h : ins = []
    · subst h
      exact ⟨trivial, rfl, rfl⟩
    · have hx25 : ¬ x = x + 25 := by intro hh; linarith
      have hx7 : ¬ x = x + 7 := by intro hh; linarith
      refine ⟨?_, ?_, ?_⟩
      · simp only [drawInsightsSection, h, ite_false, List.append_assoc]
        refine contAfter_noSP ?_ (contAfter_insightsLoop _ _ _ _ ?_)
        · simp [spFree_cons, spFree_nil]
        · exact ⟨fun hh => absurd hh (by simp), trivial⟩
      · simp only [drawInsightsSection, h, ite_false]
        rw [textsAt_append, textsAt_append, insightsLoop_texts,
          enumFrom_map_snd_comp (fun i => pyWrap (insightText i) 90)]
        simp [textsAt_cons_ds, textsAt_cons_nonds, isDS, textsAt_nil, hx25]
      · simp only [drawInsightsSection, h, ite_false]
        rw [textsAt_append, textsAt_append, insightsLoop_badges]
        simp [textsAt_cons_ds, textsAt_cons_nonds, isDS, textsAt_nil, hx7]
  · intro fs x y
    refine ⟨?_, findingsLoop_texts x (fs.take 10) y, ?_⟩
    · simpa using contAfter_findingsLoop x (fs.take 10) y [] (contAfter_nil _)
    · rw [findingsLoop_bullets]
      simp [List.length_take, Nat.min_comm]
  · intro rcs x y
    refine ⟨?_, recsLoop_texts x (rcs.take 8) y, ?_⟩
    · simpa using contAfter_recsLoop x (rcs.take 8) y [] (contAfter_nil _)
    · rw [recsLoop_checks]
      simp [List.length_take, Nat.min_comm]

theorem cardRectYs_append (a b : List DrawOp) :
    cardRectYs (a ++ b) = cardRectYs a ++ cardRectYs b := List.filterMap_append a b _

theorem cardRectYs_metricCardOps (m : Row) (cx cy : Rat) :
    cardRectYs (metricCardOps m cx cy) = [cy - 2 * cm] := by
  rcases m with _ | ⟨⟨k, v⟩, rest⟩
  · simp [metricCardOps, cardRectYs, List.filterMap_cons]
  · rcases rest with _ | ⟨⟨k2, v2⟩, rest2⟩ <;>
      simp [metricCardOps, cardRectYs, List.filterMap_cons, List.filterMap_append]

theorem spCount_eq_zero {l : List DrawOp} (h : SPFree l) : spCount l = 0 := by
  rw [spCount, List.countP_eq_zero]
  intro a ha hb
  exact h a ha (by simpa using hb)

theorem cardBad_mono (y1 : Rat) {i j : Nat} (hij : i ≤ j) (h : cardBad y1 i) :
    cardBad y1 j := by
  unfold cardBad cardPos at h ⊢
  have hd : ((i / 2 : Nat) : Rat) ≤ ((j / 2 : Nat) : Rat) :=
    Nat.cast_le.mpr (Nat.div_le_div_right hij)
  have hp : (0 : Rat) < 2 * cm + cm / 2 := by norm_num [cm]
  nlinarith [mul_le_mul_of_nonneg_right hd (le_of_lt hp)]

theorem not_cardBad_27 {i : Nat} (hi : i ≤ 9) : ¬ cardBad (27 * cm) i := by
  unfold cardBad cardPos
  have h2 : i / 2 ≤ 4 := by omega
  have hd : ((i / 2 : Nat) : Rat) ≤ 4 := by exact_mod_cast h2
  have hcm : (0 : Rat) < cm := by norm_num [cm]
  intro hlt
  nlinarith [mul_le_mul_of_nonneg_right hd (by positivity : (0:Rat) ≤ 2 * cm + cm / 2)]

theorem metricLoop_noBreak (x : Rat) (ps : List (Nat × Row)) (s : Rat)
    (h : ∀ q ∈ ps, ¬ cardBad s q.1) :
    cardRectYs (metricLoop x ps s).1 = ps.map (fun q => cardPos s q.1 - 2 * cm) ∧
    spCount (metricLoop x ps s).1 = 0 := by
  induction ps with
  | nil => exact ⟨rfl, rfl⟩
  | cons q rest ih =>
    rcases q with ⟨i, m⟩
    have hbad : ¬ cardBad s i := h (i, m) (List.mem_cons_self _ _)
    have hrest := ih (fun q hq => h q (List.mem_cons_of_mem _ hq))
    simp only [metricLoop]
    rw [if_neg (by simpa [cardBad, cardPos] using hbad)]
    constructor
    · rw [cardRectYs_append, cardRectYs_metricCardOps, hrest.1]
      simp [cardPos]
    · rw [spCount_append, spCount_eq_zero (spFree_metricCardOps m _ _), hrest.2]

theorem cardRectYs_cons_sp (l : List DrawOp) :
    cardRectYs (DrawOp.showPage :: l) = cardRectYs l := by
  simp [cardRectYs, List.filterMap_cons]

theorem spCount_cons_sp (l : List DrawOp) :
    spCount (DrawOp.showPage :: l) = spCount l + 1 := by
  simp [spCount, List.countP_cons]

theorem metricLoop_spec (x y1 : Rat) :
    ∀ (l : List Row) (k : Nat), k + l.length ≤ 10 →
      (k = 0 ∨ ¬ cardBad y1 (k - 1)) →
      cardRectYs (metricLoop x (List.enumFrom k l) y1).1
        = (List.enumFrom k l).map
            (fun q => (if cardBad y1 q.1 then 27 * cm else y1)
              - ((q.1 / 2 : Nat) : Rat) * (2 * cm + cm / 2) - 2 * cm) ∧
      spCount (metricLoop x (List.enumFrom k l) y1).1
        = (if l ≠ [] ∧ cardBad y1 (k + l.length - 1) then 1 else 0) := by
  intro l
  induction l with
  | nil =>
    intro k _ _
    exact ⟨rfl, by simp [metricLoop, spCount]⟩
  | cons m tl ih =>
    intro k hk hprev
    have henum : List.enumFrom k (m :: tl) = (k, m) :: List.enumFrom (k + 1) tl := rfl
    rw [henum]
    simp only [metricLoop]
    by_cases hb : cardBad y1 k
    · rw [if_pos (show y1 - ((k / 2 : Nat) : Rat) * (2 * cm + cm / 2) - 2 * cm < 3 * cm
        from hb)]
      have hno : ∀ q ∈ List.enumFrom (k + 1) tl, ¬ cardBad (27 * cm) q.1 := by
        intro q hq
        have h1 := List.fst_lt_add_of_mem_enumFrom hq
        have h2 : k + 1 + tl.length ≤ 10 := by
          simpa [Nat.add_comm, Nat.add_left_comm] using hk
        exact not_cardBad_27 (by omega)
      have hnb := metricLoop_noBreak x (List.enumFrom (k + 1) tl) (27 * cm) hno
      constructor
      · rw [cardRectYs_cons_sp, cardRectYs_append, cardRectYs_metricCardOps, hnb.1,
          List.singleton_append, List.map_cons]
        congr 1
        · rw [if_pos (show cardBad y1 (k, m).1 from hb)]
        · refine List.map_congr_left ?_
          intro q hq
          have h1 := List.le_fst_of_mem_enumFrom hq
          have hbq : cardBad y1 q.1 := cardBad_mono y1 (by omega) hb
          rw [if_pos hbq]
          rfl
      · rw [spCount_cons_sp, spCount_append, spCount_eq_zero (spFree_metricCardOps m _ _),
          hnb.2]
        have hlast : cardBad y1 (k + (m :: tl).length - 1) :=
          cardBad_mono y1 (by simp only [List.length_cons]; omega) hb
        rw [if_pos ⟨by simp, hlast⟩]
    · rw [if_neg (show ¬ (y1 - ((k / 2 : Nat) : Rat) * (2 * cm + cm / 2) - 2 * cm < 3 * cm)
        from hb)]
      have hih := ih (k + 1) (by simpa [Nat.add_comm, Nat.add_left_comm] using hk)
        (Or.inr (by simpa using hb))
      constructor
      · rw [cardRectYs_append, cardRectYs_metricCardOps, hih.1]
        rw [List.map_cons, if_neg hb]
        rfl
      · rw [spCount_append, spCount_eq_zero (spFree_metricCardOps m _ _), hih.2]
        by_cases htl : tl = []
        · subst htl
          simp [hb]
        · have hidx : k + 1 + tl.length - 1 = k + (m :: tl).length - 1 := by
            simp only [List.length_cons]
            omega
          rw [hidx]
          by_cases hbl : cardBad y1 (k + (m :: tl).length - 1) <;> simp [htl, hbl]

theorem enum_eq_enumFrom {α : Type} (l : List α) : l.enum = List.enumFrom 0 l := rfl

/-- Claim C4 counterexample: six one-entry metrics rendered from cursor 275
take exactly one page break (at the third card row), and the first card
drawn after the break sits at 22 cm minus the card height, that is at
20 cm — not at the 25 cm a top-of-page placement (27 cm reset minus card
height) would give.  The row is carried to the new page whole, but it keeps
its grid offset instead of being redrawn at the top. -/
theorem c4_metric_row_break_counterexample :
    spCount (drawMetricCards wMetrics6 (2 * cm) 275).1 = 1 ∧
    (cardRectYs (afterFirstBreak (drawMetricCards wMetrics6 (2 * cm) 275).1)).head?
      = Option.some (20 * cm) ∧
    ¬ (20 * cm : Rat) = 25 * cm := by decide

/-- Claim C4 (amended): for every non-empty metrics sequence, the filled
card rectangles are drawn at exactly one vertical position per card where a
card of index i sits at the original row origin, or at the 27 cm reset
origin exactly when its row overflows, always minus row-index times the
card pitch — so both cards of a row always share one vertical position and
a row is never split by the break, but after a break the row keeps its
grid offset rather than moving to the top of the new page; at most one
break is taken, exactly when some card of the sequence overflows from the
original origin. -/
theorem c4_row_break_whole_row :
    ∀ (ms : List Row) (x y : Rat), ms ≠ [] →
      cardRectYs (drawMetricCards ms x y).1
        = ((ms.take 10).enum).map
            (fun q => (if cardBad (y - 25) q.1 then 27 * cm else y - 25)
              - ((q.1 / 2 : Nat) : Rat) * (2 * cm + cm / 2) - 2 * cm) ∧
      (∀ r : Nat, 2 * r + 1 < min ms.length 10 →
          (cardRectYs (drawMetricCards ms x y).1).get? (2 * r)
            = (cardRectYs (drawMetricCards ms x y).1).get? (2 * r + 1)) ∧
      spCount (drawMetricCards ms x y).1
        = (if ∃ i, i < min ms.length 10 ∧ cardBad (y - 25) i then 1 else 0) := by
  intro ms x y hne
  have hlen : 0 + (ms.take 10).length ≤ 10 := by
    simp [List.length_take]
  have hspec := metricLoop_spec x (y - 25) (ms.take 10) 0 hlen (Or.inl rfl)
  have htitle : cardRectYs [DrawOp.setFont "Helvetica-Bold" 14,
      DrawOp.setFillColor "#2C3E50", DrawOp.drawString x y "Key Metrics",
      DrawOp.setFillColor "black"] = [] := by
    simp [cardRectYs, List.filterMap_cons]
  have htitle2 : spCount [DrawOp.setFont "Helvetica-Bold" 14,
      DrawOp.setFillColor "#2C3E50", DrawOp.drawString x y "Key Metrics",
      DrawOp.setFillColor "black"] = 0 := by
    simp [spCount, List.countP_cons]
  have hLpos : 1 ≤ (ms.take 10).length := by
    rcases ms with _ | ⟨m, rest⟩
    · exact absurd rfl hne
    · simp
  have ha : cardRectYs (drawMetricCards ms x y).1
      = ((ms.take 10).enum).map
          (fun q => (if cardBad (y - 25) q.1 then 27 * cm else y - 25)
            - ((q.1 / 2 : Nat) : Rat) * (2 * cm + cm / 2) - 2 * cm) := by
    simp only [drawMetricCards, hne, ite_false]
    rw [cardRectYs_append, htitle, enum_eq_enumFrom, hspec.1]
    simp
  refine ⟨ha, ?_, ?_⟩
  · intro r hr
    have hmin : (ms.take 10).length = min ms.length 10 := by
      rw [List.length_take, Nat.min_comm]
    have h1 : 2 * r < (ms.take 10).length := by omega
    have h2 : 2 * r + 1 < (ms.take 10).length := by omega
    rw [ha, enum_eq_enumFrom]
    rw [List.get?_map, List.get?_map, List.get?_enumFrom, List.get?_enumFrom,
      List.get?_eq_get h1, List.get?_eq_get h2]
    have hd1 : (2 * r) / 2 = r := by omega
    have hd2 : (2 * r + 1) / 2 = r := by omega
    by_cases hcb : cardBad (y - 25) (2 * r + 1)
    · have hcb2 : cardBad (y - 25) (2 * r) := by
        unfold cardBad cardPos at hcb ⊢
        rw [hd1]
        rw [hd2] at hcb
        exact hcb
      simp [hcb, hcb2, hd1, hd2]
    · have hcb2 : ¬ cardBad (y - 25) (2 * r) := by
        unfold cardBad cardPos at hcb ⊢
        rw [hd1]
        rw [hd2] at hcb
        exact hcb
      simp [hcb, hcb2, hd1, hd2]
  · simp only [drawMetricCards, hne, ite_false]
    rw [spCount_append, htitle2, enum_eq_enumFrom, hspec.2]
    have hnil : ms.take 10 ≠ [] := by
      intro hc
      rw [hc] at hLpos
      exact absurd hLpos (by simp)
    have hmin : (ms.take 10).length = min ms.length 10 := by
      rw [List.length_take, Nat.min_comm]
    by_cases hbl : cardBad (y - 25) (0 + (ms.take 10).length - 1)
    · rw [if_pos ⟨hnil, hbl⟩]
      have hex : ∃ i, i < min ms.length 10 ∧ cardBad (y - 25) i :=
        ⟨(ms.take 10).length - 1, by omega, by simpa using hbl⟩
      rw [if_pos hex]
    · rw [if_neg (fun hc => hbl hc.2)]
      have hnex : ¬ ∃ i, i < min ms.length 10 ∧ cardBad (y - 25) i := by
        rintro ⟨i, hi, hbad⟩
        exact hbl (cardBad_mono (y - 25) (by omega) hbad)
      rw [if_neg hnex]

/-- Claim C4 witness: the amended theorem applied to the concrete
six-metric sequence of the counterexample. -/
theorem c4_row_break_whole_row_witness :
    wMetrics6 ≠ [] ∧
    (cardRectYs (drawMetricCards wMetrics6 (2 * cm) 275).1).get? 0
      = (cardRectYs (drawMetricCards wMetrics6 (2 * cm) 275).1).get? 1 ∧
    spCount (drawMetricCards wMetrics6 (2 * cm) 275).1
      = (if ∃ i, i < min wMetrics6.length 10 ∧ cardBad (275 - 25) i then 1 else 0) :=
  ⟨by decide,
   (c4_row_break_whole_row wMetrics6 (2 * cm) 275 (by decide)).2.1 0 (by decide),
   (c4_row_break_whole_row wMetrics6 (2 * cm) 275 (by decide)).2.2⟩

end Pdf
